import Mathlib

/-!
Shallow embedding of the natural-language-to-SQL query engine of
kartoza-pg-ai (internal/llm/engine.go) together with proofs about it.

Modelling conventions:
- Go strings are modelled as lists of characters (`Str`); the inputs the
  engine handles are ASCII, where Go byte indexing and Lean character
  indexing agree.
- Go float64 score arithmetic is modelled exactly over the rationals.  To
  keep every definition kernel-computable we route rational arithmetic
  through mkRat-based wrappers (qMul, qAdd, qSub, qDiv) that are proved
  equal to the ordinary field operations on the rationals.
- Go maps are modelled as association lists keyed in insertion order; the
  only map whose iteration order can influence a result (findCommonColumns)
  is sorted before use, which we prove makes the output order-independent.
- Go regular expressions (package regexp, leftmost-first submatch
  semantics) are modelled by a small backtracking matcher over a regex
  syntax tree; each pattern string from the source is transcribed into a
  tree, and matching tries each start position left to right, with ordered
  alternation and greedy or lazy repetition, exactly the leftmost-first
  rule Go documents.
-/

deriving instance DecidableEq for Except

/-- Go strings, modelled as lists of characters. -/
abbrev Str : Type := List Char

/-- Embed a Lean string literal into the list-of-characters model. -/
def str (x : String) : Str := x.data

/-- Go strings.ToLower, restricted to ASCII case mapping. -/
def toLowerS (s : Str) : Str := s.map Char.toLower

/-- Whitespace recognised by Go unicode.IsSpace (ASCII part). -/
def isSpaceGo (c : Char) : Bool :=
  c = ' ' || c = '\t' || c = '\n' || c = '\x0b' || c = '\x0c' || c = '\r'

/-- Go strings.TrimSpace: drop leading and trailing whitespace. -/
def trimSpaceS (s : Str) : Str :=
  ((s.dropWhile isSpaceGo).reverse.dropWhile isSpaceGo).reverse

/-- Go strings.Contains: does s contain sub as a substring. -/
def containsS (s sub : Str) : Bool :=
  match s with
  | [] => sub.isEmpty
  | _ :: t => sub.isPrefixOf s || containsS t sub

/-- Go strings.Fields: split around runs of whitespace. -/
def fieldsS (s : Str) : List Str :=
  (s.splitOnP isSpaceGo).filter (fun w => !w.isEmpty)

/-- Go strings.Trim with a cutset: drop leading and trailing characters
that belong to the cutset. -/
def trimSetS (s : Str) (cutset : List Char) : Str :=
  ((s.dropWhile (· ∈ cutset)).reverse.dropWhile (· ∈ cutset)).reverse

/-- Go strings.TrimSuffix: drop the suffix if present, else id. -/
def trimSuffixS (s suffixStr : Str) : Str :=
  if suffixStr.isSuffixOf s then s.take (s.length - suffixStr.length) else s

theorem containsS_infix_iff (s sub : Str) : containsS s sub = true ↔ sub <:+: s := by
  induction s with
  | nil =>
    simp [containsS, List.isEmpty_iff]
  | cons c t ih =>
    simp [containsS, List.infix_cons_iff, ih, List.isPrefixOf_iff_prefix]

theorem containsS_length_le {s sub : Str} (h : containsS s sub = true) :
    sub.length ≤ s.length :=
  ((containsS_infix_iff s sub).mp h).length_le

/-- Contains is reflexive (used to evaluate literal-substring checks). -/
theorem containsS_refl (s : Str) : containsS s s = true :=
  (containsS_infix_iff s s).mpr List.infix_rfl

/- Kernel-computable rational arithmetic.  The Batteries implementations of
Rat.add, Rat.mul, Rat.sub and Rat.inv are marked irreducible, so terms built
from them do not evaluate under decide; mkRat does evaluate.  The score
arithmetic of the engine is therefore phrased with the wrappers below,
proved equal to the ordinary rational operations. -/

/-- Exact rational division of two naturals (Go float division of lengths). -/
def qDiv (a b : Nat) : ℚ := mkRat a b

/-- Kernel-computable rational multiplication. -/
def qMul (a b : ℚ) : ℚ := mkRat (a.num * b.num) (a.den * b.den)

/-- Kernel-computable rational addition. -/
def qAdd (a b : ℚ) : ℚ := mkRat (a.num * b.den + b.num * a.den) (a.den * b.den)

/-- Kernel-computable rational subtraction. -/
def qSub (a b : ℚ) : ℚ := mkRat (a.num * b.den - b.num * a.den) (a.den * b.den)

theorem qDiv_eq (a b : Nat) : qDiv a b = (a : ℚ) / (b : ℚ) := by
  unfold qDiv
  rcases Nat.eq_zero_or_pos b with hb | hb
  · subst hb; simp [Rat.mkRat_eq_div]
  · rw [Rat.mkRat_eq_div]; norm_num

theorem ratNum_eq_mul_den (q : ℚ) : (q.num : ℚ) = q * q.den := by
  have hd : ((q.den : ℚ)) ≠ 0 := by exact_mod_cast q.den_nz
  have h : (q.num : ℚ) / q.den = q := Rat.num_div_den q
  rw [div_eq_iff hd] at h
  exact h

theorem qMul_eq (a b : ℚ) : qMul a b = a * b := by
  unfold qMul
  have ha : ((a.den : ℚ)) ≠ 0 := by exact_mod_cast a.den_nz
  have hb : ((b.den : ℚ)) ≠ 0 := by exact_mod_cast b.den_nz
  rw [Rat.mkRat_eq_div]
  push_cast
  rw [div_eq_iff (mul_ne_zero ha hb), ratNum_eq_mul_den a, ratNum_eq_mul_den b]
  ring

theorem qAdd_eq (a b : ℚ) : qAdd a b = a + b := by
  unfold qAdd
  have ha : ((a.den : ℚ)) ≠ 0 := by exact_mod_cast a.den_nz
  have hb : ((b.den : ℚ)) ≠ 0 := by exact_mod_cast b.den_nz
  rw [Rat.mkRat_eq_div]
  push_cast
  rw [div_eq_iff (mul_ne_zero ha hb), ratNum_eq_mul_den a, ratNum_eq_mul_den b]
  ring

theorem qSub_eq (a b : ℚ) : qSub a b = a - b := by
  unfold qSub
  have ha : ((a.den : ℚ)) ≠ 0 := by exact_mod_cast a.den_nz
  have hb : ((b.den : ℚ)) ≠ 0 := by exact_mod_cast b.den_nz
  rw [Rat.mkRat_eq_div]
  push_cast
  rw [div_eq_iff (mul_ne_zero ha hb), ratNum_eq_mul_den a, ratNum_eq_mul_den b]
  ring

theorem qDiv_nonneg (a b : Nat) : 0 ≤ qDiv a b := by
  rw [qDiv_eq]; positivity

theorem qDiv_le_one {a b : Nat} (h : a ≤ b) : qDiv a b ≤ 1 := by
  rw [qDiv_eq]
  rcases Nat.eq_zero_or_pos b with hb | hb
  · subst hb; simp
  · rw [div_le_one (by exact_mod_cast hb)]; exact_mod_cast h

/- Semantic scorer (engine.go, SemanticMatcher). -/

/-- Suffix list of stemWord, in source order. -/
def stemSuffixes : List Str :=
  [str "ology", str "ological", str "ation", str "ations", str "ment", str "ments",
   str "ness", str "ity", str "ies", str "ing", str "ed", str "er", str "ers", str "est",
   str "ly", str "al", str "ial", str "ous", str "ive", str "able", str "ible", str "ful",
   str "less", str "ship", str "ward", str "wards", str "wise"]

/-- Go stemWord: lowercase, strip plural endings, then the first matching
common suffix whose removal leaves at least 3 characters. -/
def stemWord (word0 : Str) : Str :=
  let word1 := toLowerS word0
  let word :=
    if (str "ies").isSuffixOf word1 ∧ 4 < word1.length then
      word1.take (word1.length - 3) ++ ['y']
    else if (str "es").isSuffixOf word1 ∧ 3 < word1.length then
      word1.take (word1.length - 2)
    else if (str "s").isSuffixOf word1 ∧ 2 < word1.length ∧ ¬ (str "ss").isSuffixOf word1 then
      word1.take (word1.length - 1)
    else word1
  match stemSuffixes.find? (fun suf => suf.isSuffixOf word && word.length - suf.length ≥ 3) with
  | some suf => word.take (word.length - suf.length)
  | none => word

/-- Go minInt over a variadic list (empty list never occurs in the source). -/
def minInt : List Nat → Nat
  | [] => 0
  | x :: xs => xs.foldl Nat.min x

/-- One inner iteration of the Go levenshteinDistance matrix fill: given the
previous row (entries j-1 .. n at the front) and the entry just computed to
the left, produce entries j .. n of the current row, taking the minimum of
deletion, insertion and substitution in source order. -/
def levRowGo (c1 : Char) : Str → List Nat → Nat → List Nat
  | c2 :: t2, pDiag :: pRest, qPrev =>
    let pj := match pRest with | [] => 0 | x :: _ => x
    let cost := if c1 = c2 then 0 else 1
    let qj := minInt [pj + 1, qPrev + 1, pDiag + cost]
    qj :: levRowGo c1 t2 pRest qj
  | _, _, _ => []

/-- Go levenshteinDistance: edit distance via the row-by-row DP matrix of
the source (matrix[i][j] = min of deletion, insertion, substitution), with
the early returns for empty strings. -/
def levenshteinDistance (s1 s2 : Str) : Nat :=
  if s1.length = 0 then s2.length
  else if s2.length = 0 then s1.length
  else
    let row0 := List.range (s2.length + 1)
    let final := s1.foldl (fun (st : List Nat × Nat) c1 =>
      let i := st.2 + 1
      (i :: levRowGo c1 s2 st.1 i, i)) (row0, 0)
    (final.1).getLastD 0

/-- Go generateNgrams: the set of character n-grams of the lowercased
string (the whole string when it is shorter than n). -/
def generateNgrams (s0 : Str) (n : Nat) : Finset Str :=
  let s := toLowerS s0
  if s.length < n then {s}
  else ((List.range (s.length - n + 1)).map (fun i => (s.drop i).take n)).toFinset

/-- Go ngramSimilarity: Jaccard similarity of n-gram sets. -/
def ngramSimilarity (s1 s2 : Str) (n : Nat) : ℚ :=
  let ngrams1 := generateNgrams s1 n
  let ngrams2 := generateNgrams s2 n
  if ngrams1.card = 0 ∨ ngrams2.card = 0 then 0
  else
    let intersection := (ngrams1 ∩ ngrams2).card
    let unionCard := ngrams1.card + ngrams2.card - intersection
    if unionCard = 0 then 0 else qDiv intersection unionCard

/-- Go splitEntityName: replace underscores and hyphens by spaces, then
split on spaces and camel-case boundaries, lowercasing each word. -/
def splitEntityName (name0 : Str) : List Str :=
  let name := name0.map (fun c => if c = '_' ∨ c = '-' then ' ' else c)
  let fin := name.foldl (fun (st : List Str × Str × Nat) r =>
    let res := st.1
    let cur := st.2.1
    let i := st.2.2
    if r = ' ' then
      (if cur ≠ [] then res ++ [toLowerS cur] else res, [], i + 1)
    else if 0 < i ∧ 'A' ≤ r ∧ r ≤ 'Z' ∧ cur ≠ [] then
      (res ++ [toLowerS cur], [r], i + 1)
    else
      (res, cur ++ [r], i + 1)) ([], [], 0)
  if fin.2.1 ≠ [] then fin.1 ++ [toLowerS fin.2.1] else fin.1

/-- Result record of the Go scorer (MatchScore). -/
structure MatchScore where
  score : ℚ
  matchType : String
  keyword : Str
  entityName : Str
deriving DecidableEq

/-- Branch 2a of calculateMatchScore: entity contains keyword. -/
def containsStep (keyword entityLower entityName : Str) (best : MatchScore) : MatchScore :=
  if containsS entityLower keyword then
    let score := qMul (mkRat 85 100) (qDiv keyword.length entityLower.length)
    if best.score < score then ⟨qAdd score (mkRat 1 10), "contains", keyword, entityName⟩
    else best
  else best

/-- Branch 2b of calculateMatchScore: keyword contains entity. -/
def containsRevStep (keyword entityLower entityName : Str) (best : MatchScore) : MatchScore :=
  if containsS keyword entityLower ∧ 3 ≤ entityLower.length then
    let score := qMul (mkRat 8 10) (qDiv entityLower.length keyword.length)
    if best.score < score then
      ⟨qAdd score (mkRat 1 10), "contains_reverse", keyword, entityName⟩
    else best
  else best

/-- Branch 3 of calculateMatchScore: one string is a prefix of the other. -/
def prefixStep (keyword entityLower entityName : Str) (best : MatchScore) : MatchScore :=
  if keyword.isPrefixOf entityLower ∨ entityLower.isPrefixOf keyword then
    let minLen := if entityLower.length < keyword.length then entityLower.length else keyword.length
    let score := qMul (mkRat 75 100) (qDiv minLen (entityLower.length + keyword.length - minLen))
    if best.score < score then ⟨qAdd score (mkRat 15 100), "prefix", keyword, entityName⟩
    else best
  else best

/-- Branch 4 partial-stem update for one entity word. -/
def stemPartialStep (keywordStem keyword entityName : Str) (best : MatchScore) (w : Str) :
    MatchScore :=
  let wordStem := stemWord w
  if keywordStem.isPrefixOf wordStem ∨ wordStem.isPrefixOf keywordStem then
    let minLen := if wordStem.length < keywordStem.length then wordStem.length else keywordStem.length
    if 3 ≤ minLen then
      let score := qMul (mkRat 7 10) (qDiv minLen keywordStem.length)
      if best.score < score then ⟨score, "stem_partial", keyword, entityName⟩ else best
    else best
  else best

/-- Branch 5 of calculateMatchScore: trigram Jaccard similarity. -/
def ngramStep (keyword entityLower entityName : Str) (best : MatchScore) : MatchScore :=
  let ngramScore := ngramSimilarity keyword entityLower 3
  if mkRat 3 10 < ngramScore ∧ best.score < ngramScore then
    ⟨qMul ngramScore (mkRat 8 10), "ngram", keyword, entityName⟩
  else best

/-- Branch 6 of calculateMatchScore: Levenshtein fuzzy match. -/
def fuzzyStep (keyword entityLower entityName : Str) (best : MatchScore) : MatchScore :=
  let lenDiff := ((keyword.length : Int) - (entityLower.length : Int)).natAbs
  if lenDiff ≤ 3 ∧ 4 ≤ keyword.length then
    let distance := levenshteinDistance keyword entityLower
    let maxLen := if keyword.length < entityLower.length then entityLower.length else keyword.length
    if distance ≤ 2 then
      let score := qMul (qSub 1 (qDiv distance maxLen)) (mkRat 7 10)
      if best.score < score then ⟨score, "fuzzy", keyword, entityName⟩ else best
    else best
  else best

/-- Go calculateMatchScore: all strategies fused by take-max, with the
early returns of the source (exact, exact word, full stem) kept as
conditionals ahead of the accumulating branches. -/
def calculateMatchScore (keyword0 entityName : Str) : MatchScore :=
  let keyword := toLowerS keyword0
  let entityLower := toLowerS entityName
  let entityWords := splitEntityName entityName
  if keyword = entityLower then ⟨1, "exact", keyword, entityName⟩
  else if entityWords.any (fun w => keyword = w) then
    ⟨mkRat 95 100, "exact_word", keyword, entityName⟩
  else
    let best1 := containsStep keyword entityLower entityName ⟨0, "", keyword, entityName⟩
    let best2 := containsRevStep keyword entityLower entityName best1
    let best3 := prefixStep keyword entityLower entityName best2
    let keywordStem := stemWord keyword
    let entityStem := stemWord entityLower
    if entityWords.any (fun w => stemWord w == keywordStem && 3 ≤ keywordStem.length) then
      ⟨mkRat 85 100, "stem", keyword, entityName⟩
    else
      let best4 := entityWords.foldl (stemPartialStep keywordStem keyword entityName) best3
      let best5 :=
        if keywordStem = entityStem ∧ 3 ≤ keywordStem.length then
          if best4.score < mkRat 85 100 then ⟨mkRat 85 100, "stem", keyword, entityName⟩
          else best4
        else best4
      let best6 := ngramStep keyword entityLower entityName best5
      fuzzyStep keyword entityLower entityName best6

/- The in-place double-loop sort used twice by the source
(findSemanticMatches sorts matches by score descending, findCommonColumns
sorts column names ascending).  The loops

  for i := 0; i < len(a)-1; i++ { for j := i+1; j < len(a); j++ {
      if swapCond(a[j], a[i]) { a[i], a[j] = a[j], a[i] } } }

are modelled structurally: one outer iteration carries the current a[i]
through the tail, swapping whenever the condition fires, and the outer loop
recurses on the leftover tail. -/

/-- One outer iteration of the exchange sort: returns the element that ends
up at position i and the leftover tail (positions i+1 onward). -/
def exchPass (sc : α → α → Bool) : α → List α → α × List α
  | cur, [] => (cur, [])
  | cur, x :: xs =>
    if sc x cur then
      let r := exchPass sc x xs
      (r.1, cur :: r.2)
    else
      let r := exchPass sc cur xs
      (r.1, x :: r.2)

theorem exchPass_snd_length (sc : α → α → Bool) (cur : α) (l : List α) :
    (exchPass sc cur l).2.length = l.length := by
  induction l generalizing cur with
  | nil => rfl
  | cons x xs ih =>
    by_cases h : sc x cur = true
    · simp [exchPass, h, ih]
    · simp [exchPass, h, ih]

/-- The full exchange sort, by recursion on the list length (the leftover
tail of a pass has the same length as the input tail, so the fuel never
runs out; phrasing it this way keeps the function kernel-computable). -/
def exchSortFuel (sc : α → α → Bool) : Nat → List α → List α
  | _, [] => []
  | 0, l => l
  | n + 1, x :: xs =>
    let r := exchPass sc x xs
    r.1 :: exchSortFuel sc n r.2

/-- The exchange sort of the source loops. -/
def exchSort (sc : α → α → Bool) (l : List α) : List α :=
  exchSortFuel sc l.length l

theorem exchPass_perm (sc : α → α → Bool) (cur : α) (l : List α) :
    List.Perm ((exchPass sc cur l).1 :: (exchPass sc cur l).2) (cur :: l) := by
  induction l generalizing cur with
  | nil => rfl
  | cons x xs ih =>
    by_cases h : sc x cur = true
    · simp only [exchPass, h, if_pos]
      exact (List.Perm.swap cur (exchPass sc x xs).1 (exchPass sc x xs).2).trans
        ((ih x).cons cur)
    · simp only [exchPass, h, if_neg, Bool.false_eq_true, not_false_iff]
      exact (List.Perm.swap x (exchPass sc cur xs).1 (exchPass sc cur xs).2).trans
        (((ih cur).cons x).trans (List.Perm.swap cur x xs))

theorem exchSortFuel_perm (sc : α → α → Bool) :
    ∀ n (l : List α), l.length ≤ n → List.Perm (exchSortFuel sc n l) l := by
  intro n
  induction n with
  | zero =>
    intro l hl
    rw [List.length_eq_zero.mp (Nat.le_zero.mp hl)]
    rfl
  | succ n ih =>
    intro l hl
    match l with
    | [] => rfl
    | x :: xs =>
      rw [exchSortFuel]
      have h1 : List.Perm (exchSortFuel sc n (exchPass sc x xs).2) (exchPass sc x xs).2 := by
        apply ih
        rw [exchPass_snd_length]
        simpa using hl
      exact (h1.cons _).trans (exchPass_perm sc x xs)

theorem exchSort_perm (sc : α → α → Bool) (l : List α) :
    List.Perm (exchSort sc l) l :=
  exchSortFuel_perm sc l.length l le_rfl

/-- Irreflexivity of the swap condition, derived from asymmetry. -/
theorem sc_irrefl (sc : α → α → Bool)
    (h_asymm : ∀ a b, sc a b = true → sc b a = false) (a : α) : sc a a = false := by
  cases h : sc a a with
  | false => rfl
  | true =>
    have hc := h_asymm a a h
    rw [h] at hc
    exact hc

theorem exchPass_fst (sc : α → α → Bool)
    (h_asymm : ∀ a b, sc a b = true → sc b a = false)
    (h_negtrans : ∀ a b c, sc a b = false → sc b c = false → sc a c = false)
    (cur : α) (l : List α) : sc cur (exchPass sc cur l).1 = false := by
  induction l generalizing cur with
  | nil => exact sc_irrefl sc h_asymm cur
  | cons x xs ih =>
    by_cases h : sc x cur = true
    · simp only [exchPass, h, if_pos]
      exact h_negtrans cur x _ (h_asymm x cur h) (ih x)
    · simp only [exchPass, h, if_neg, Bool.false_eq_true, not_false_iff]
      exact ih cur

theorem exchPass_snd (sc : α → α → Bool)
    (h_asymm : ∀ a b, sc a b = true → sc b a = false)
    (h_negtrans : ∀ a b c, sc a b = false → sc b c = false → sc a c = false)
    (cur : α) (l : List α) :
    ∀ y ∈ (exchPass sc cur l).2, sc y (exchPass sc cur l).1 = false := by
  induction l generalizing cur with
  | nil => intro y hy; simp [exchPass] at hy
  | cons x xs ih =>
    by_cases h : sc x cur = true
    · simp only [exchPass, h, if_pos]
      intro y hy
      rcases List.mem_cons.mp hy with rfl | hy
      · exact h_negtrans y x _ (h_asymm x y h) (exchPass_fst sc h_asymm h_negtrans x xs)
      · exact ih x y hy
    · simp only [exchPass, h, if_neg, Bool.false_eq_true, not_false_iff]
      intro y hy
      rcases List.mem_cons.mp hy with rfl | hy
      · exact h_negtrans y cur _ (by simpa using h) (exchPass_fst sc h_asymm h_negtrans cur xs)
      · exact ih cur y hy

theorem exchSortFuel_sorted (sc : α → α → Bool)
    (h_asymm : ∀ a b, sc a b = true → sc b a = false)
    (h_negtrans : ∀ a b c, sc a b = false → sc b c = false → sc a c = false) :
    ∀ n (l : List α), l.length ≤ n →
      List.Sorted (fun a b => sc b a = false) (exchSortFuel sc n l) := by
  intro n
  induction n with
  | zero =>
    intro l hl
    rw [List.length_eq_zero.mp (Nat.le_zero.mp hl)]
    exact List.sorted_nil
  | succ n ih =>
    intro l hl
    match l with
    | [] => exact List.sorted_nil
    | x :: xs =>
      rw [exchSortFuel]
      have hlen : (exchPass sc x xs).2.length ≤ n := by
        rw [exchPass_snd_length]
        simpa using hl
      rw [List.sorted_cons]
      refine ⟨fun b hb => ?_, ih _ hlen⟩
      have hbmem : b ∈ (exchPass sc x xs).2 :=
        (exchSortFuel_perm sc n _ hlen).mem_iff.mp hb
      exact exchPass_snd sc h_asymm h_negtrans x xs b hbmem

theorem exchSort_sorted (sc : α → α → Bool)
    (h_asymm : ∀ a b, sc a b = true → sc b a = false)
    (h_negtrans : ∀ a b c, sc a b = false → sc b c = false → sc a c = false)
    (l : List α) : List.Sorted (fun a b => sc b a = false) (exchSort sc l) :=
  exchSortFuel_sorted sc h_asymm h_negtrans l.length l le_rfl

/-- Byte-lexicographic string comparison (Go string <), by character code. -/
def strLt : Str → Str → Bool
  | [], [] => false
  | [], _ :: _ => true
  | _ :: _, [] => false
  | a :: s, b :: t => if a < b then true else if b < a then false else strLt s t

theorem strLt_iff_lt (a b : Str) : strLt a b = true ↔ a < b := by
  induction a generalizing b with
  | nil =>
    cases b with
    | nil =>
      simp only [strLt, Bool.false_eq_true, false_iff]
      exact lt_irrefl _
    | cons c t =>
      simp only [strLt, true_iff]
      exact List.nil_lt_cons c t
  | cons x s ih =>
    cases b with
    | nil =>
      simp only [strLt, Bool.false_eq_true, false_iff]
      intro h
      cases h
    | cons y t =>
      by_cases hxy : x < y
      · simp only [strLt, hxy, if_pos, true_iff]
        exact List.Lex.rel hxy
      · by_cases hyx : y < x
        · simp only [strLt, hxy, hyx, if_neg, if_pos, not_false_iff, Bool.false_eq_true,
            false_iff]
          intro h
          cases h with
          | cons h => exact lt_irrefl _ hyx
          | rel h => exact hxy h
        · have hxyeq : x = y := le_antisymm (le_of_not_lt hyx) (le_of_not_lt hxy)
          subst hxyeq
          simp only [strLt, hxy, if_neg, not_false_iff, lt_irrefl]
          rw [ih t]
          constructor
          · intro h
            exact List.Lex.cons h
          · intro h
            cases h with
            | cons h => exact h
            | rel h => exact absurd h (lt_irrefl x)

theorem strLt_asymm (a b : Str) (h : strLt a b = true) : strLt b a = false := by
  cases hc : strLt b a with
  | false => rfl
  | true =>
    exact absurd ((strLt_iff_lt a b).mp h) (lt_asymm ((strLt_iff_lt b a).mp hc))

theorem strLt_negtrans (a b c : Str) (hab : strLt a b = false) (hbc : strLt b c = false) :
    strLt a c = false := by
  cases hc : strLt a c with
  | false => rfl
  | true =>
    have h1 : ¬ a < b := fun h => by rw [(strLt_iff_lt a b).mpr h] at hab; cases hab
    have h2 : ¬ b < c := fun h => by rw [(strLt_iff_lt b c).mpr h] at hbc; cases hbc
    have h3 : a < c := (strLt_iff_lt a c).mp hc
    exact absurd (lt_of_lt_of_le h3 (le_trans (le_of_not_lt h2) (le_of_not_lt h1))) (lt_irrefl a)

/- Schema model (config.SchemaCache / TableInfo / ColumnInfo); fields the
engine never reads (views, functions, cache metadata, service name) are
omitted. -/

/-- Database column description (config.ColumnInfo). -/
structure ColumnInfo where
  name : Str
  dataType : Str := []
  isNullable : Bool := false
  isPrimaryKey : Bool := false
  isForeignKey : Bool := false
  fkTable : Str := []
  fkColumn : Str := []
  comment : Str := []
  isGeometry : Bool := false
  geomType : Str := []
  srid : Int := 0
deriving DecidableEq

/-- Database table description (config.TableInfo). -/
structure TableInfo where
  schema : Str
  name : Str
  columns : List ColumnInfo := []
  comment : Str := []
deriving DecidableEq

/-- Harvested schema (config.SchemaCache). -/
structure SchemaCache where
  tables : List TableInfo
  hasPostGIS : Bool := false
deriving DecidableEq

/-- One entry of the anonymous match-record list of findSemanticMatches. -/
structure SemanticMatch where
  table : TableInfo
  score : ℚ
  matchType : String
  matchedOn : Str
  keyword : Str
deriving DecidableEq

/-- The per-table running best match (the anonymous bestMatch struct). -/
structure BestInfo where
  score : ℚ
  matchType : String
  matchedOn : Str
  keyword : Str
deriving DecidableEq

/-- Minimum score threshold of findSemanticMatches. -/
def minScore : ℚ := mkRat 35 100

/-- Inner loop body of findSemanticMatches for one keyword against one
table: try the table name, each word of the table comment, and each column
name, tracking (bestTableScore, bestMatch) exactly as the source does. -/
def scanKeyword (table : TableInfo) (st : ℚ × BestInfo) (keyword : Str) : ℚ × BestInfo :=
  let sc1 := calculateMatchScore keyword table.name
  let st1 := if st.1 < sc1.score ∧ minScore ≤ sc1.score then
      (sc1.score, BestInfo.mk sc1.score (sc1.matchType ++ "_table") table.name keyword)
    else st
  let st2 := if table.comment ≠ [] then
      (fieldsS (toLowerS table.comment)).foldl (fun acc word =>
        let sc := calculateMatchScore keyword word
        if acc.1 < sc.score ∧ minScore ≤ sc.score then
          (sc.score,
           BestInfo.mk (qMul sc.score (mkRat 9 10)) (sc.matchType ++ "_comment") table.comment keyword)
        else acc) st1
    else st1
  table.columns.foldl (fun acc col =>
    let sc := calculateMatchScore keyword col.name
    if minScore ≤ sc.score then
      let colScore := qMul sc.score (mkRat 85 100)
      if acc.1 < colScore then
        (colScore, BestInfo.mk colScore (sc.matchType ++ "_column") col.name keyword)
      else acc
    else acc) st2

/-- Per-table keyword scan of findSemanticMatches. -/
def scanTable (keywords : List Str) (table : TableInfo) : ℚ × BestInfo :=
  keywords.foldl (scanKeyword table) (0, BestInfo.mk 0 "" [] [])

/-- Swap condition of the descending score sort in findSemanticMatches. -/
def matchSwap (x cur : SemanticMatch) : Bool := decide (cur.score < x.score)

/-- Go findSemanticMatches: per table keep the best (keyword, target)
pair above the threshold, then sort by score descending with the
double-loop exchange sort of the source. -/
def findSemanticMatches (schema : SchemaCache) (keywords : List Str) : List SemanticMatch :=
  let found := schema.tables.foldl (fun acc table =>
    let st := scanTable keywords table
    if minScore ≤ st.1 then
      acc ++ [SemanticMatch.mk table st.2.score st.2.matchType st.2.matchedOn st.2.keyword]
    else acc) []
  exchSort matchSwap found

/-- Go map assignment m[k] = v on an association list. -/
def setKV : List (Str × Nat) → Str → Nat → List (Str × Nat)
  | [], k, v => [(k, v)]
  | kv :: rest, k, v => if kv.1 = k then (k, v) :: rest else kv :: setKV rest k v

/-- Go findCommonColumns: count, per column name of the first table, the
tables containing it; keep names present in all tables; sort ascending
with the double-loop exchange sort of the source.  The Go map iterates in
unspecified order; the association list fixes one order, and the final
sort makes the result independent of it. -/
def findCommonColumns (matchList : List SemanticMatch) : List Str :=
  match matchList with
  | [] => []
  | m0 :: rest =>
    let counts0 := m0.table.columns.foldl (fun acc col => setKV acc col.name 1) []
    let counts := rest.foldl (fun acc m =>
      let tableCols := m.table.columns.map (fun col => col.name)
      acc.map (fun kv => if kv.1 ∈ tableCols then (kv.1, kv.2 + 1) else kv)) counts0
    let result := (counts.filter (fun kv => kv.2 = matchList.length)).map (fun kv => kv.1)
    exchSort strLt result

/-- Go findTable: case-insensitive exact match, then substring containment,
then singular/plural comparison after stripping a trailing s, first hit
wins; each stage scans tables in schema order. -/
def findTable (schema : SchemaCache) (name0 : Str) : Option TableInfo :=
  let name := toLowerS name0
  match schema.tables.find? (fun t => toLowerS t.name == name) with
  | some t => some t
  | none =>
    match schema.tables.find? (fun t => containsS (toLowerS t.name) name) with
    | some t => some t
    | none =>
      let singular := trimSuffixS name (str "s")
      schema.tables.find? (fun t =>
        toLowerS t.name == singular || trimSuffixS (toLowerS t.name) (str "s") == singular)

/- Regular expressions (Go package regexp).  Go documents leftmost-first
(backtracking-equivalent) submatch semantics: the match starts at the
earliest possible position; alternatives are preferred left to right;
quantifiers are greedy unless suffixed with a question mark.  The matcher
below returns the list of all (remaining input, captures) continuations in
that preference order; the first entry is the Go match. -/

/-- Regex syntax tree covering the constructs used by the source patterns. -/
inductive RE where
  | eps
  | lit (c : Char)
  | cls (p : Char → Bool)
  | cat (r1 r2 : RE)
  | alt (r1 r2 : RE)
  | star (r : RE)
  | lazyStar (r : RE)
  | grp (idx : Nat) (r : RE)
  | eos

/-- Node count, used only to bound the backtracking fuel. -/
def reSize : RE → Nat
  | .eps => 1
  | .lit _ => 1
  | .cls _ => 1
  | .cat r1 r2 => reSize r1 + reSize r2 + 1
  | .alt r1 r2 => reSize r1 + reSize r2 + 1
  | .star r => reSize r + 1
  | .lazyStar r => reSize r + 1
  | .grp _ r => reSize r + 1
  | .eos => 1

/-- All ways a regex can match a prefix of the input, in Go preference
order, paired with the group captures made on the way.  Star iterations
that consume nothing are cut off (as real engines do).  The fuel counts
recursion depth and is chosen large enough never to run out (each level of
the pattern tree costs one unit, and a star unrolling must consume input);
phrasing the recursion over fuel keeps the matcher kernel-computable. -/
def reMatches : Nat → RE → Str → List (Str × List (Nat × Str))
  | 0, _, _ => []
  | fuel + 1, re, s =>
    match re, s with
    | .eps, s => [(s, [])]
    | .lit _, [] => []
    | .lit c, x :: xs => if x = c then [(xs, [])] else []
    | .cls _, [] => []
    | .cls p, x :: xs => if p x then [(xs, [])] else []
    | .cat r1 r2, s =>
      (reMatches fuel r1 s).bind (fun rc =>
        (reMatches fuel r2 rc.1).map (fun rc2 => (rc2.1, rc2.2 ++ rc.2)))
    | .alt r1 r2, s => reMatches fuel r1 s ++ reMatches fuel r2 s
    | .star r, s =>
      ((reMatches fuel r s).bind (fun rc =>
        if rc.1.length < s.length then
          (reMatches fuel (.star r) rc.1).map (fun rc2 => (rc2.1, rc2.2 ++ rc.2))
        else [])) ++ [(s, [])]
    | .lazyStar r, s =>
      (s, []) :: (reMatches fuel r s).bind (fun rc =>
        if rc.1.length < s.length then
          (reMatches fuel (.lazyStar r) rc.1).map (fun rc2 => (rc2.1, rc2.2 ++ rc.2))
        else [])
    | .grp i r, s =>
      (reMatches fuel r s).map (fun rc => (rc.1, (i, s.take (s.length - rc.1.length)) :: rc.2))
    | .eos, s => if s.isEmpty then [(s, [])] else []

/-- Fuel bound for a whole-string match attempt: recursion depth along any
path is at most the tree height per star unrolling, and unrollings consume
input, so (size + 2) * (length + 2) units never run out. -/
def reFuel (r : RE) (s : Str) : Nat := (reSize r + 2) * (s.length + 2)

/-- Go FindStringSubmatch, match attempt at successive start positions;
returns the captures of the leftmost-first match. -/
def reFindAux (r : RE) : Str → Option (List (Nat × Str))
  | [] =>
    match reMatches (reFuel r []) r [] with
    | rc :: _ => some rc.2
    | [] => none
  | c :: t =>
    match reMatches (reFuel r (c :: t)) r (c :: t) with
    | rc :: _ => some rc.2
    | [] => reFindAux r t

/-- Leftmost-first search of a pattern in a string. -/
def reFind (r : RE) (s : Str) : Option (List (Nat × Str)) := reFindAux r s

/-- Captured text of group i; the empty string when the group did not
participate in the match (Go yields the empty string there too). -/
def getCap (caps : List (Nat × Str)) (i : Nat) : Str :=
  match caps.find? (fun kv => kv.1 == i) with
  | some kv => kv.2
  | none => []

/-- Literal string regex. -/
def reStr (x : String) : RE := x.data.foldr (fun c r => RE.cat (RE.lit c) r) RE.eps

/-- Sequencing of a pattern list. -/
def reCat (l : List RE) : RE := l.foldr RE.cat RE.eps

/-- Ordered alternation of a pattern list. -/
def reAlts : List RE → RE
  | [] => RE.eps
  | [r] => r
  | r :: rest => RE.alt r (reAlts rest)

/-- Question-mark quantifier (greedy: prefers presence). -/
def reOpt (r : RE) : RE := RE.alt r RE.eps

/-- Plus quantifier (greedy). -/
def rePlus (r : RE) : RE := RE.cat r (RE.star r)

/-- Go regexp backslash-w class. -/
def wordChar (c : Char) : Bool := c.isAlphanum || c = '_'

/-- Go regexp backslash-d class. -/
def digitChar (c : Char) : Bool := c.isDigit

/-- Go regexp backslash-s class. -/
def spaceChar (c : Char) : Bool := c = '\t' || c = '\n' || c = '\x0c' || c = '\r' || c = ' '

/-- Go regexp dot (any character but newline). -/
def dotChar (c : Char) : Bool := c != '\n'

def wPlus : RE := rePlus (RE.cls wordChar)

def dPlus : RE := rePlus (RE.cls digitChar)

def sPlus : RE := rePlus (RE.cls spaceChar)

def sStar : RE := RE.star (RE.cls spaceChar)

/-- Lazy dot-plus, the (.+?) of the search patterns. -/
def dotPlusLazy : RE := RE.cat (RE.cls dotChar) (RE.lazyStar (RE.cls dotChar))

/-- Greedy dot-plus. -/
def dotPlus : RE := RE.cat (RE.cls dotChar) (RE.star (RE.cls dotChar))

/-- The four countPatterns of matchCountQuery, in source order. -/
def countPatterns : List RE :=
  [reCat [reStr "how many ", reAlts [reStr "rows", reStr "records", reStr "entries"],
     reStr " ", reOpt (reStr "are "), reStr "in ", reOpt (reStr "the "),
     reOpt (reStr "table "), RE.grp 1 wPlus],
   reCat [reStr "count ", reOpt (reAlts [reStr "of ", reStr "all "]),
     reOpt (reAlts [reStr "rows ", reStr "records "]), reOpt (reStr "in "),
     reOpt (reStr "the "), RE.grp 1 wPlus],
   reCat [RE.grp 1 wPlus, reStr " ", reOpt (reAlts [reStr "row ", reStr "record "]),
     reStr "count"],
   reCat [reStr "how many ", RE.grp 1 wPlus]]

/-- The four showPatterns of matchShowQuery, in source order. -/
def showPatterns : List RE :=
  [reCat [reStr "show ", reOpt (reStr "me "), reOpt (reStr "the "), reOpt (reStr "first "),
     reOpt (RE.grp 1 dPlus), reOpt (RE.lit ' '), reOpt (reAlts [reStr "rows ", reStr "records "]),
     reOpt (reAlts [reStr "from ", reStr "of "]), reOpt (reStr "the "), RE.grp 2 wPlus],
   reCat [reStr "list ", reOpt (reStr "the "), reOpt (reStr "first "),
     reOpt (RE.grp 1 dPlus), reOpt (RE.lit ' '), RE.grp 2 wPlus],
   reCat [reStr "get ", reOpt (reStr "the "), reOpt (reStr "first "),
     reOpt (RE.grp 1 dPlus), reOpt (RE.lit ' '), RE.grp 2 wPlus],
   reCat [reStr "display ", reOpt (reStr "the "), reOpt (reStr "first "),
     reOpt (RE.grp 1 dPlus), reOpt (RE.lit ' '), RE.grp 2 wPlus]]

/-- The four colPatterns of matchTableQuery, in source order. -/
def colPatterns : List RE :=
  [reCat [reStr "what ", reOpt (reStr "are "), reOpt (reStr "the "), reStr "columns ",
     reOpt (reAlts [reStr "in ", reStr "of "]), reOpt (reStr "the "), RE.grp 1 wPlus],
   reCat [reStr "describe ", reOpt (reStr "the "), RE.grp 1 wPlus],
   reCat [reStr "schema ", reOpt (reAlts [reStr "of ", reStr "for "]), reOpt (reStr "the "),
     RE.grp 1 wPlus],
   reCat [RE.grp 1 wPlus, reStr " structure"]]

/-- Distance unit alternation of the spatial patterns. -/
def unitRE : RE :=
  reAlts [reStr "km", reCat [reStr "kilometer", reOpt (reStr "s")], reStr "m",
    reCat [reStr "meter", reOpt (reStr "s")], reStr "mi", reCat [reStr "mile", reOpt (reStr "s")]]

/-- Decimal number capture of the spatial patterns. -/
def numRE : RE := reCat [dPlus, reOpt (reCat [RE.lit '.', dPlus])]

/-- The two distancePatterns of matchSpatialQuery, in source order. -/
def distancePatterns : List RE :=
  [reCat [reStr "within ", RE.grp 1 numRE, sStar, unitRE],
   reCat [RE.grp 1 numRE, sStar, unitRE, reStr " ",
     reAlts [reStr "from", reStr "of", reStr "away"]]]

/-- The three selectPatterns of matchSelectQuery, in source order. -/
def selectPatterns : List RE :=
  [reCat [reStr "select ", reOpt (reStr "all "), reOpt (reStr "from "), RE.grp 1 wPlus],
   reCat [reStr "fetch ", reOpt (reStr "all "), reOpt (reStr "from "), RE.grp 1 wPlus],
   reCat [reStr "retrieve ", reOpt (reStr "all "), reOpt (reStr "from "), RE.grp 1 wPlus]]

/-- The three searchPatterns of matchSearchQuery, in source order. -/
def searchPatterns : List RE :=
  [reCat [reAlts [reStr "do i have", reStr "is there", reStr "are there", reStr "find",
      reStr "search for", reStr "look for", reStr "any"], reStr " ", reOpt (reStr "any "),
     RE.grp 1 dotPlusLazy,
     reOpt (reAlts [reCat [sPlus, reOpt (reCat [reStr "related", sPlus]), reStr "data"],
       reCat [sPlus, reStr "table", reOpt (reStr "s")],
       reCat [sPlus, reStr "information"]]),
     RE.eos],
   reCat [reAlts [reStr "what", reStr "which"], reStr " ",
     reAlts [reCat [reStr "table", reOpt (reStr "s")], reStr "data"], reStr " ",
     reAlts [reStr "contain", reStr "have", reStr "include", reStr "relate to", reStr "about"],
     reStr " ", RE.grp 1 dotPlus],
   reCat [RE.grp 1 dotPlusLazy, reOpt (reCat [sPlus, reStr "related"]), sPlus,
     reAlts [reCat [reStr "table", reOpt (reStr "s")], reStr "data"]]]

/- Pattern dispatcher (engine.go GenerateSQL and the match* helpers).
Matchers return the empty string to decline, as the source does.  Single
quotes inside SQL text are written with the \x27 escape. -/

/-- Digits of a natural number (for the %d of rowsPerTable). -/
def natDigitsAux : Nat → Nat → Str
  | 0, _ => []
  | _ + 1, 0 => []
  | fuel + 1, n => natDigitsAux fuel (n / 10) ++ [Char.ofNat (48 + n % 10)]

/-- Decimal rendering of a natural number. -/
def natToStr (n : Nat) : Str := if n = 0 then str "0" else natDigitsAux (n + 1) n

/-- Decimal rendering of an integer. -/
def intToStr (i : Int) : Str :=
  if i < 0 then str "-" ++ natToStr i.natAbs else natToStr i.natAbs

/-- Round to the nearest integer, ties to even (Go fmt %.0f). -/
def roundHalfEven (q : ℚ) : Int :=
  let fl := Int.fdiv q.num q.den
  let frac := qSub q (mkRat fl 1)
  if mkRat 1 2 < frac then fl + 1
  else if frac < mkRat 1 2 then fl
  else if fl % 2 = 0 then fl else fl + 1

/-- Go fmt.Sprintf %.0f of a score percentage. -/
def fmtF0 (q : ℚ) : Str := intToStr (roundHalfEven q)

/-- Go matchCountQuery. -/
def matchCountQuery (schema : SchemaCache) (query : Str) : Str :=
  let special :=
    if containsS query (str "each table") || containsS query (str "all tables") then
      let queries := schema.tables.map (fun t =>
        str "SELECT \x27" ++ t.schema ++ str "." ++ t.name ++
        str "\x27 as table_name, COUNT(*) as row_count FROM \"" ++ t.schema ++
        str "\".\"" ++ t.name ++ str "\"")
      if queries ≠ [] then
        some (List.intercalate (str " UNION ALL ") queries ++ str " ORDER BY row_count DESC")
      else none
    else none
  match special with
  | some s => s
  | none =>
    match countPatterns.findSome? (fun p =>
      match reFind p query with
      | some caps =>
        match findTable schema (getCap caps 1) with
        | some table =>
          some (str "SELECT COUNT(*) as count FROM \"" ++ table.schema ++ str "\".\"" ++
            table.name ++ str "\"")
        | none => none
      | none => none) with
    | some s => s
    | none => []

/-- Go regexp MatchString of the anchored digits pattern used inside
matchShowQuery. -/
def isAllDigits (m : Str) : Bool := !m.isEmpty && m.all Char.isDigit

/-- The limit/table disambiguation loop of matchShowQuery over the captured
groups: a numeric capture becomes the limit, a non-numeric one the table
name (the source guards the first group with the index test i > 0). -/
def showLimitTable (caps : List (Nat × Str)) : Str × Str :=
  let g1 := getCap caps 1
  let g2 := getCap caps 2
  [(0, g1), (1, g2)].foldl (fun (st : Str × Str) im =>
    let m := im.2
    if m = [] then st
    else if isAllDigits m then (m, st.2)
    else if 0 < im.1 ∨ ¬ isAllDigits g1 = true then (st.1, m)
    else st) (str "50", [])

/-- Go matchShowQuery. -/
def matchShowQuery (schema : SchemaCache) (query : Str) : Str :=
  match showPatterns.findSome? (fun p =>
    match reFind p query with
    | some caps =>
      let lt := showLimitTable caps
      if lt.2 ≠ [] then
        match findTable schema lt.2 with
        | some table =>
          some (str "SELECT * FROM \"" ++ table.schema ++ str "\".\"" ++ table.name ++
            str "\" LIMIT " ++ lt.1)
        | none => none
      else none
    | none => none) with
  | some s => s
  | none => []

/-- The base-table listing emitted for list/show/what tables queries. -/
def tableListSQL : Str :=
  str "SELECT table_schema, table_name,\n\t\t\t(SELECT COUNT(*) FROM information_schema.columns c WHERE c.table_schema = t.table_schema AND c.table_name = t.table_name) as column_count\n\t\t\tFROM information_schema.tables t\n\t\t\tWHERE table_type = \x27BASE TABLE\x27 AND table_schema NOT IN (\x27pg_catalog\x27, \x27information_schema\x27)\n\t\t\tORDER BY table_schema, table_name"

/-- Go matchTableQuery. -/
def matchTableQuery (schema : SchemaCache) (query : Str) : Str :=
  if containsS query (str "tables") &&
      (containsS query (str "list") || containsS query (str "show") ||
       containsS query (str "what")) then
    tableListSQL
  else
    match colPatterns.findSome? (fun p =>
      match reFind p query with
      | some caps =>
        match findTable schema (getCap caps 1) with
        | some table =>
          some (str "SELECT column_name, data_type, is_nullable, column_default\n\t\t\t\t\tFROM information_schema.columns\n\t\t\t\t\tWHERE table_schema = \x27" ++
            table.schema ++ str "\x27 AND table_name = \x27" ++ table.name ++
            str "\x27\n\t\t\t\t\tORDER BY ordinal_position")
        | none => none
      | none => none) with
    | some s => s
    | none =>
      if containsS query (str "largest") && containsS query (str "table") then
        let queries := schema.tables.map (fun t =>
          str "SELECT \x27" ++ t.schema ++ str "." ++ t.name ++
          str "\x27 as table_name, COUNT(*) as row_count FROM \"" ++ t.schema ++
          str "\".\"" ++ t.name ++ str "\"")
        if queries ≠ [] then
          List.intercalate (str " UNION ALL ") queries ++ str " ORDER BY row_count DESC LIMIT 10"
        else []
      else []

/-- Go matchSpatialQuery. -/
def matchSpatialQuery (schema : SchemaCache) (query : Str) : Str :=
  let geomTables := schema.tables.filter (fun t => t.columns.any (fun c => c.isGeometry))
  match geomTables with
  | [] => []
  | table :: _ =>
    let distanceResult := distancePatterns.findSome? (fun p =>
      match reFind p query with
      | some caps =>
        let geomCol := match table.columns.find? (fun c => c.isGeometry) with
          | some c => c.name
          | none => []
        if geomCol ≠ [] then
          let dist := getCap caps 1
          let distMeters :=
            if containsS query (str "km") || containsS query (str "kilometer") then
              dist ++ str " * 1000"
            else if containsS query (str "mi") || containsS query (str "mile") then
              dist ++ str " * 1609.34"
            else dist
          some (str "SELECT * FROM \"" ++ table.schema ++ str "\".\"" ++ table.name ++
            str "\"\n\t\t\t\t\tWHERE ST_DWithin(\"" ++ geomCol ++
            str "\"::geography, ST_MakePoint(0, 0)::geography, " ++ distMeters ++
            str ")\n\t\t\t\t\tLIMIT 50")
        else none
      | none => none)
    match distanceResult with
    | some s => s
    | none =>
      let areaResult :=
        if containsS query (str "area") || containsS query (str "size") then
          geomTables.findSome? (fun t =>
            t.columns.findSome? (fun col =>
              if col.isGeometry &&
                  (col.geomType = str "POLYGON" || col.geomType = str "MULTIPOLYGON") then
                some (str "SELECT *, ST_Area(\"" ++ col.name ++
                  str "\"::geography) as area_sqm\n\t\t\t\t\t\tFROM \"" ++ t.schema ++
                  str "\".\"" ++ t.name ++ str "\"\n\t\t\t\t\t\tORDER BY ST_Area(\"" ++
                  col.name ++ str "\"::geography) DESC\n\t\t\t\t\t\tLIMIT 50")
              else none))
        else none
      match areaResult with
      | some s => s
      | none =>
        let lengthResult :=
          if containsS query (str "length") || containsS query (str "meters of road") ||
              containsS query (str "distance") then
            geomTables.findSome? (fun t =>
              t.columns.findSome? (fun col =>
                if col.isGeometry &&
                    (col.geomType = str "LINESTRING" || col.geomType = str "MULTILINESTRING") then
                  if containsS query (str "total") || containsS query (str "sum") then
                    some (str "SELECT SUM(ST_Length(\"" ++ col.name ++
                      str "\"::geography)) as total_length_meters\n\t\t\t\t\t\t\tFROM \"" ++
                      t.schema ++ str "\".\"" ++ t.name ++ str "\"")
                  else
                    some (str "SELECT *, ST_Length(\"" ++ col.name ++
                      str "\"::geography) as length_meters\n\t\t\t\t\t\tFROM \"" ++ t.schema ++
                      str "\".\"" ++ t.name ++ str "\"\n\t\t\t\t\t\tORDER BY ST_Length(\"" ++
                      col.name ++ str "\"::geography) DESC\n\t\t\t\t\t\tLIMIT 50")
                else none))
          else none
        match lengthResult with
        | some s => s
        | none => []

/-- Go matchSelectQuery. -/
def matchSelectQuery (schema : SchemaCache) (query : Str) : Str :=
  match selectPatterns.findSome? (fun p =>
    match reFind p query with
    | some caps =>
      match findTable schema (getCap caps 1) with
      | some table =>
        some (str "SELECT * FROM \"" ++ table.schema ++ str "\".\"" ++ table.name ++
          str "\" LIMIT 50")
      | none => none
    | none => none) with
  | some s => s
  | none => []

/-- Stop-word set of matchSearchQuery, in source order. -/
def excludeWords : List Str :=
  [str "the", str "a", str "an", str "any", str "some",
   str "data", str "table", str "tables", str "related",
   str "information", str "do", str "i", str "have", str "is",
   str "there", str "are", str "find", str "search", str "for",
   str "look", str "what", str "which", str "contain", str "about",
   str "include", str "with", str "my", str "in", str "to"]

/-- Keyword extraction of matchSearchQuery: the first matching search
template contributes the words of its captured clause (lowercased, trimmed
of punctuation, longer than 2, not stop words); when that leaves nothing,
all query words longer than 3 that are not stop words. -/
def extractKeywords (query : Str) : List Str :=
  let fromPatterns := searchPatterns.findSome? (fun p =>
    (reFind p query).map (fun caps =>
      (fieldsS (getCap caps 1)).foldl (fun acc w0 =>
        let w := toLowerS (trimSetS w0 (str ".,?!"))
        if 2 < w.length ∧ w ∉ excludeWords then acc ++ [w] else acc) []))
  let keywords := match fromPatterns with
    | some ks => ks
    | none => []
  if keywords = [] then
    (fieldsS query).foldl (fun acc w0 =>
      let w := toLowerS (trimSetS w0 (str ".,?!"))
      if 3 < w.length ∧ w ∉ excludeWords then acc ++ [w] else acc) []
  else keywords

/-- The all-tables listing emitted when no semantic match is found. -/
def availabilitySQL : Str :=
  str "SELECT table_schema, table_name,\n\t\t\t(SELECT string_agg(column_name, \x27, \x27) FROM information_schema.columns c\n\t\t\t WHERE c.table_schema = t.table_schema AND c.table_name = t.table_name) as columns\n\t\t\tFROM information_schema.tables t\n\t\t\tWHERE table_type = \x27BASE TABLE\x27 AND table_schema NOT IN (\x27pg_catalog\x27, \x27information_schema\x27)\n\t\t\tORDER BY table_schema, table_name"

/-- Go matchSearchQuery. -/
def matchSearchQuery (schema : SchemaCache) (query : Str) : Str :=
  let keywords := extractKeywords query
  if keywords = [] then []
  else
    let ms := findSemanticMatches schema keywords
    match ms with
    | [] => availabilitySQL
    | m0 :: _ =>
      if ms.length = 1 then
        str "SELECT * FROM \"" ++ m0.table.schema ++ str "\".\"" ++ m0.table.name ++
          str "\" LIMIT 50"
      else
        let topScore := m0.score
        let similar := ms.foldl (fun (acc : List SemanticMatch) m =>
          if qSub topScore m.score ≤ mkRat 25 100 ∧ acc.length < 5 then acc ++ [m]
          else acc) []
        if 1 < similar.length then
          let commonCols := findCommonColumns similar
          if commonCols ≠ [] then
            let unionQueries := similar.map (fun m =>
              let colList := commonCols.map (fun col => str "\"" ++ col ++ str "\"")
              str "SELECT \x27" ++ m.table.schema ++ str "." ++ m.table.name ++
              str "\x27 as _source_table, " ++ List.intercalate (str ", ") colList ++
              str " FROM \"" ++ m.table.schema ++ str "\".\"" ++ m.table.name ++ str "\"")
            List.intercalate (str " UNION ALL ") unionQueries ++ str " LIMIT 100"
          else
            let rowsPerTable := if 100 / similar.length < 10 then 10 else 100 / similar.length
            let unionQueries := similar.map (fun m =>
              str "(SELECT \x27" ++ m.table.schema ++ str "." ++ m.table.name ++
              str "\x27 as _source_table, * FROM \"" ++ m.table.schema ++ str "\".\"" ++
              m.table.name ++ str "\" LIMIT " ++ natToStr rowsPerTable ++ str ")")
            List.intercalate (str " UNION ALL ") unionQueries
        else
          if mkRat 6 10 < m0.score then
            str "SELECT * FROM \"" ++ m0.table.schema ++ str "\".\"" ++ m0.table.name ++
              str "\" LIMIT 50"
          else
            let queries := (ms.take 10).map (fun m =>
              str "SELECT \x27" ++ m.table.schema ++ str "." ++ m.table.name ++
              str "\x27 as table_name, \x27" ++ fmtF0 (qMul m.score (mkRat 100 1)) ++
              str "%\x27 as match_score, \x27" ++ m.matchedOn ++
              str "\x27 as matched_on, COUNT(*) as row_count FROM \"" ++ m.table.schema ++
              str "\".\"" ++ m.table.name ++ str "\"")
            if queries ≠ [] then
              List.intercalate (str " UNION ALL ") queries ++ str " ORDER BY row_count DESC"
            else []

/-- Accepted SQL opening keywords of isValidSQLStructure, in source order. -/
def validStarts : List Str :=
  [str "select", str "insert", str "update", str "delete", str "with", str "create",
   str "alter", str "drop"]

/-- Go isValidSQLStructure: the structural sanity check applied to learned
predictions. -/
def isValidSQLStructure (sql0 : Str) : Bool :=
  let sql := trimSpaceS (toLowerS sql0)
  if sql = [] then false
  else
    let hasValidStart := validStarts.any (fun start => start.isPrefixOf sql)
    if ¬ hasValidStart then false
    else if (str "select").isPrefixOf sql ∧ ¬ containsS sql (str "from") then false
    else if sql.count '(' ≠ sql.count ')' then false
    else true

/-- Learned predictor handle (nn.QueryTrainer): whether it is trained, and
its prediction with confidence (none models a prediction error). -/
structure NNTrainer where
  trained : Bool
  predict : Str → Option (Str × ℚ)

/-- Go QueryEngine. -/
structure QueryEngine where
  schema : Option SchemaCache
  nnTrainer : Option NNTrainer
  useNN : Bool

/-- The learned-predictor gate at the top of GenerateSQL: a prediction is
used only when the engine has a trained predictor enabled, the prediction
succeeds with confidence above 0.6, and the text passes the structural
sanity check. -/
def nnGate (e : QueryEngine) (query : Str) : Option Str :=
  if e.useNN then
    match e.nnTrainer with
    | some t =>
      if t.trained then
        match t.predict query with
        | some pc =>
          if mkRat 6 10 < pc.2 then
            if isValidSQLStructure pc.1 then some pc.1 else none
          else none
        | none => none
      else none
    | none => none
  else none

/-- The rule-based dispatcher cascade of GenerateSQL, applied to the
trimmed, lowercased query. -/
def ruleBasedSQL (schema : SchemaCache) (query0 : Str) : Except Str Str :=
  let query := trimSpaceS (toLowerS query0)
  if matchCountQuery schema query ≠ [] then .ok (matchCountQuery schema query)
  else if matchShowQuery schema query ≠ [] then .ok (matchShowQuery schema query)
  else if matchTableQuery schema query ≠ [] then .ok (matchTableQuery schema query)
  else if schema.hasPostGIS ∧ matchSpatialQuery schema query ≠ [] then
    .ok (matchSpatialQuery schema query)
  else if matchSelectQuery schema query ≠ [] then .ok (matchSelectQuery schema query)
  else if matchSearchQuery schema query ≠ [] then .ok (matchSearchQuery schema query)
  else
    match schema.tables.find? (fun t => containsS query (toLowerS t.name)) with
    | some t =>
      .ok (str "SELECT * FROM \"" ++ t.schema ++ str "\".\"" ++ t.name ++ str "\" LIMIT 50")
    | none => .error (str "could not understand query: " ++ query)

/-- Go GenerateSQL: fail when no schema is loaded, otherwise consult the
learned predictor and fall back to the rule-based cascade.  The context
argument is accepted but never read, exactly as in the source. -/
def GenerateSQL (e : QueryEngine) (query : Str) (context : Str) : Except Str Str :=
  match e.schema with
  | none => .error (str "no schema loaded")
  | some schema =>
    match nnGate e query with
    | some sql => .ok sql
    | none => ruleBasedSQL schema query


/- Score bounds for the semantic scorer (claim C4). -/

theorem qAffine_bounds (c d r : ℚ) (hc : 0 ≤ c) (hd : 0 ≤ d) (hcd : c + d ≤ 1)
    (hr0 : 0 ≤ r) (hr1 : r ≤ 1) : 0 ≤ c * r + d ∧ c * r + d ≤ 1 :=
  ⟨by positivity, by nlinarith⟩

/-- Shorthand for the unit-interval score invariant. -/
def scoreInv (b : MatchScore) : Prop := 0 ≤ b.score ∧ b.score ≤ 1

theorem containsStep_bounds (keyword entityLower entityName : Str) (best : MatchScore)
    (hb : scoreInv best) : scoreInv (containsStep keyword entityLower entityName best) := by
  unfold containsStep
  simp only [qAdd_eq, qMul_eq, Rat.mkRat_eq_div]
  split_ifs with h1 h2
  · have hlen : keyword.length ≤ entityLower.length := containsS_length_le h1
    unfold scoreInv
    dsimp only
    refine qAffine_bounds _ _ _ ?_ ?_ ?_ (qDiv_nonneg _ _) (qDiv_le_one hlen) <;> norm_num
  · exact hb
  · exact hb

theorem containsRevStep_bounds (keyword entityLower entityName : Str) (best : MatchScore)
    (hb : scoreInv best) : scoreInv (containsRevStep keyword entityLower entityName best) := by
  unfold containsRevStep
  simp only [qAdd_eq, qMul_eq, Rat.mkRat_eq_div]
  split_ifs with h1 h2
  · have hlen : entityLower.length ≤ keyword.length := containsS_length_le h1.1
    unfold scoreInv
    dsimp only
    refine qAffine_bounds _ _ _ ?_ ?_ ?_ (qDiv_nonneg _ _) (qDiv_le_one hlen) <;> norm_num
  · exact hb
  · exact hb

theorem prefixStep_bounds (keyword entityLower entityName : Str) (best : MatchScore)
    (hb : scoreInv best) : scoreInv (prefixStep keyword entityLower entityName best) := by
  unfold prefixStep
  simp only [qAdd_eq, qMul_eq, Rat.mkRat_eq_div]
  split_ifs with h1 h2 h3 h4
  all_goals try exact hb
  all_goals unfold scoreInv
  all_goals dsimp only
  · refine qAffine_bounds _ _ _ ?_ ?_ ?_ (qDiv_nonneg _ _) (qDiv_le_one (by omega)) <;>
      norm_num
  · refine qAffine_bounds _ _ _ ?_ ?_ ?_ (qDiv_nonneg _ _) (qDiv_le_one (by omega)) <;>
      norm_num

theorem stemPartialStep_bounds (keywordStem keyword entityName : Str) (best : MatchScore)
    (w : Str) (hb : scoreInv best) :
    scoreInv (stemPartialStep keywordStem keyword entityName best w) := by
  unfold stemPartialStep
  simp only [qMul_eq, Rat.mkRat_eq_div]
  split_ifs with h1 h2 h3 h4 h5 h6
  all_goals try exact hb
  all_goals unfold scoreInv
  all_goals dsimp only
  · have hq := qAffine_bounds ((7 : ℚ)/10) 0 _ (by norm_num) (by norm_num) (by norm_num)
      (qDiv_nonneg ((stemWord w).length) (keywordStem.length))
      (qDiv_le_one (by omega))
    simpa using hq
  · have hq := qAffine_bounds ((7 : ℚ)/10) 0 _ (by norm_num) (by norm_num) (by norm_num)
      (qDiv_nonneg (keywordStem.length) (keywordStem.length))
      (qDiv_le_one (by omega))
    simpa using hq

theorem ngramSimilarity_bounds (s1 s2 : Str) (n : Nat) :
    0 ≤ ngramSimilarity s1 s2 n ∧ ngramSimilarity s1 s2 n ≤ 1 := by
  simp only [ngramSimilarity]
  split_ifs with h1 h2
  · norm_num
  · norm_num
  · have hi1 : (generateNgrams s1 n ∩ generateNgrams s2 n).card ≤ (generateNgrams s1 n).card :=
      Finset.card_le_card Finset.inter_subset_left
    have hi2 : (generateNgrams s1 n ∩ generateNgrams s2 n).card ≤ (generateNgrams s2 n).card :=
      Finset.card_le_card Finset.inter_subset_right
    exact ⟨qDiv_nonneg _ _, qDiv_le_one (by omega)⟩

theorem ngramStep_bounds (keyword entityLower entityName : Str) (best : MatchScore)
    (hb : scoreInv best) : scoreInv (ngramStep keyword entityLower entityName best) := by
  unfold ngramStep
  simp only [qMul_eq, Rat.mkRat_eq_div]
  split_ifs with h1
  · have hn := ngramSimilarity_bounds keyword entityLower 3
    unfold scoreInv
    dsimp only
    constructor
    · nlinarith [hn.1]
    · nlinarith [hn.1, hn.2]
  · exact hb

theorem fuzzyStep_bounds (keyword entityLower entityName : Str) (best : MatchScore)
    (hb : scoreInv best) : scoreInv (fuzzyStep keyword entityLower entityName best) := by
  unfold fuzzyStep
  simp only [qMul_eq, qSub_eq, Rat.mkRat_eq_div]
  split_ifs with h1 h2 h3 h4 h5 h6
  all_goals try exact hb
  all_goals unfold scoreInv
  all_goals dsimp only
  · have hr0 := qDiv_nonneg (levenshteinDistance keyword entityLower) entityLower.length
    have hr1 : qDiv (levenshteinDistance keyword entityLower) entityLower.length ≤ 1 :=
      qDiv_le_one (by omega)
    constructor <;> nlinarith
  · have hr0 := qDiv_nonneg (levenshteinDistance keyword entityLower) keyword.length
    have hr1 : qDiv (levenshteinDistance keyword entityLower) keyword.length ≤ 1 :=
      qDiv_le_one (by omega)
    constructor <;> nlinarith

theorem stemPartialFold_bounds (keywordStem keyword entityName : Str) (ws : List Str)
    (best : MatchScore) (hb : scoreInv best) :
    scoreInv (ws.foldl (stemPartialStep keywordStem keyword entityName) best) := by
  induction ws generalizing best with
  | nil => exact hb
  | cons w ws ih =>
    exact ih _ (stemPartialStep_bounds keywordStem keyword entityName best w hb)

theorem mkRat_85_100_bounds : (0 : ℚ) ≤ mkRat 85 100 ∧ (mkRat 85 100 : ℚ) ≤ 1 := by
  rw [Rat.mkRat_eq_div]; norm_num

/-- Core of claim C4: every score produced by the scorer lies in the unit
interval. -/
theorem calculateMatchScore_score_bounds (keyword0 entityName : Str) :
    scoreInv (calculateMatchScore keyword0 entityName) := by
  have hbase : scoreInv (MatchScore.mk 0 "" (toLowerS keyword0) entityName) :=
    ⟨le_refl 0, by norm_num⟩
  have hchain : ∀ b : MatchScore, scoreInv b →
      scoreInv (fuzzyStep (toLowerS keyword0) (toLowerS entityName) entityName
        (ngramStep (toLowerS keyword0) (toLowerS entityName) entityName b)) := by
    intro b hbv
    exact fuzzyStep_bounds _ _ _ _ (ngramStep_bounds _ _ _ _ hbv)
  unfold calculateMatchScore
  dsimp only
  split_ifs with h1 h2 h3 h4 h5
  · exact ⟨by norm_num, by norm_num⟩
  · unfold scoreInv
    dsimp only
    rw [Rat.mkRat_eq_div]
    norm_num
  · exact mkRat_85_100_bounds
  · exact hchain _ mkRat_85_100_bounds
  · exact hchain _ (stemPartialFold_bounds _ _ _ _ _
      (prefixStep_bounds _ _ _ _ (containsRevStep_bounds _ _ _ _
        (containsStep_bounds _ _ _ _ hbase))))
  · exact hchain _ (stemPartialFold_bounds _ _ _ _ _
      (prefixStep_bounds _ _ _ _ (containsRevStep_bounds _ _ _ _
        (containsStep_bounds _ _ _ _ hbase))))

/- Relation between bestTableScore and the recorded candidate score
(claims C1 and C5). -/

/-- Invariant of the per-table scan state: the recorded best score equals
the threshold comparand, or is its comment-weighted 0.9 multiple. -/
def bestInv (st : ℚ × BestInfo) : Prop :=
  st.2.score = st.1 ∨ st.2.score = qMul st.1 (mkRat 9 10)

theorem commentFold_inv (keyword : Str) (table : TableInfo) (ws : List Str)
    (st : ℚ × BestInfo) (h : bestInv st) :
    bestInv (ws.foldl (fun acc word =>
      let sc := calculateMatchScore keyword word
      if acc.1 < sc.score ∧ minScore ≤ sc.score then
        (sc.score,
         BestInfo.mk (qMul sc.score (mkRat 9 10)) (sc.matchType ++ "_comment") table.comment keyword)
      else acc) st) := by
  induction ws generalizing st with
  | nil => exact h
  | cons w ws ih =>
    apply ih
    dsimp only
    split_ifs with hc
    · right; rfl
    · exact h

theorem columnFold_inv (keyword : Str) (cols : List ColumnInfo)
    (st : ℚ × BestInfo) (h : bestInv st) :
    bestInv (cols.foldl (fun acc col =>
      let sc := calculateMatchScore keyword col.name
      if minScore ≤ sc.score then
        let colScore := qMul sc.score (mkRat 85 100)
        if acc.1 < colScore then
          (colScore, BestInfo.mk colScore (sc.matchType ++ "_column") col.name keyword)
        else acc
      else acc) st) := by
  induction cols generalizing st with
  | nil => exact h
  | cons c cols ih =>
    apply ih
    dsimp only
    split_ifs with hc1 hc2
    · left; rfl
    · exact h
    · exact h

theorem scanKeyword_inv (table : TableInfo) (st : ℚ × BestInfo) (keyword : Str)
    (h : bestInv st) : bestInv (scanKeyword table st keyword) := by
  unfold scanKeyword
  dsimp only
  apply columnFold_inv
  split_ifs with h1 h2 h3
  · exact commentFold_inv _ _ _ _ (Or.inl rfl)
  · exact commentFold_inv _ _ _ _ h
  · left; rfl
  · exact h

theorem scanTable_inv (keywords : List Str) (table : TableInfo) :
    bestInv (scanTable keywords table) := by
  unfold scanTable
  have key : ∀ (ks : List Str) (st : ℚ × BestInfo), bestInv st →
      bestInv (ks.foldl (scanKeyword table) st) := by
    intro ks
    induction ks with
    | nil => exact fun st h => h
    | cons k ks ih => exact fun st h => ih _ (scanKeyword_inv table st k h)
  exact key keywords _ (Or.inl rfl)

theorem bestInv_lower_bound (st : ℚ × BestInfo) (h : bestInv st)
    (hs : minScore ≤ st.1) : mkRat 63 200 ≤ st.2.score := by
  have h35 : (minScore : ℚ) = 35/100 := by unfold minScore; rw [Rat.mkRat_eq_div]; norm_num
  have h63 : (mkRat 63 200 : ℚ) = 63/200 := by rw [Rat.mkRat_eq_div]; norm_num
  have h910 : (mkRat 9 10 : ℚ) = 9/10 := by rw [Rat.mkRat_eq_div]; norm_num
  rcases h with h | h
  · rw [h, h63]
    rw [h35] at hs
    linarith
  · rw [h63, h, qMul_eq, h910]
    rw [h35] at hs
    nlinarith

/-- Membership in the accumulated match list of findSemanticMatches comes
from a table whose best score reached the threshold. -/
theorem buildMatches_mem (keywords : List Str) (tables : List TableInfo)
    (acc : List SemanticMatch) (m : SemanticMatch)
    (hm : m ∈ tables.foldl (fun acc table =>
      let st := scanTable keywords table
      if minScore ≤ st.1 then
        acc ++ [SemanticMatch.mk table st.2.score st.2.matchType st.2.matchedOn st.2.keyword]
      else acc) acc) :
    m ∈ acc ∨ ∃ table, minScore ≤ (scanTable keywords table).1 ∧
      m.score = (scanTable keywords table).2.score := by
  induction tables generalizing acc with
  | nil => exact Or.inl hm
  | cons t ts ih =>
    rcases ih _ hm with hacc | hfound
    · dsimp only at hacc
      split_ifs at hacc with hth
      · rcases List.mem_append.mp hacc with h1 | h2
        · exact Or.inl h1
        · refine Or.inr ⟨t, hth, ?_⟩
          rw [List.mem_singleton.mp h2]
      · exact Or.inl hacc
    · exact Or.inr hfound

theorem matchSwap_asymm (a b : SemanticMatch) (h : matchSwap a b = true) :
    matchSwap b a = false := by
  simp only [matchSwap, decide_eq_true_eq] at h
  simp only [matchSwap, decide_eq_false_iff_not]
  exact not_lt.mpr (le_of_lt h)

theorem matchSwap_negtrans (a b c : SemanticMatch) (hab : matchSwap a b = false)
    (hbc : matchSwap b c = false) : matchSwap a c = false := by
  simp only [matchSwap, decide_eq_false_iff_not, not_lt] at hab hbc ⊢
  exact le_trans hab hbc

/- Correctness of findCommonColumns (claim C10). -/

/-- Column-name list of a match. -/
def colNames (m : SemanticMatch) : List Str := m.table.columns.map (fun col => col.name)

theorem setKV_fst_mem (l : List (Str × Nat)) (k : Str) (v : Nat) (c : Str) :
    c ∈ (setKV l k v).map Prod.fst ↔ c ∈ l.map Prod.fst ∨ c = k := by
  induction l with
  | nil => simp [setKV]
  | cons kv rest ih =>
    by_cases hk : kv.1 = k
    · simp [setKV, hk]
      tauto
    · simp [setKV, hk, ih]
      tauto

theorem setKV_fst_nodup (l : List (Str × Nat)) (k : Str) (v : Nat)
    (h : (l.map Prod.fst).Nodup) : ((setKV l k v).map Prod.fst).Nodup := by
  induction l with
  | nil => simp [setKV]
  | cons kv rest ih =>
    by_cases hk : kv.1 = k
    · simp only [setKV, hk, if_pos]
      simpa [hk] using h
    · simp only [setKV, hk, if_neg, not_false_iff, List.map_cons, List.nodup_cons]
      simp only [List.map_cons, List.nodup_cons] at h
      constructor
      · intro hc
        exact h.1 (((setKV_fst_mem rest k v kv.1).mp hc).resolve_right hk)
      · exact ih h.2

theorem setKV_values_one (l : List (Str × Nat)) (k : Str)
    (h : ∀ kv ∈ l, (kv : Str × Nat).2 = 1) : ∀ kv ∈ setKV l k 1, (kv : Str × Nat).2 = 1 := by
  induction l with
  | nil =>
    intro kv hkv
    simp [setKV] at hkv
    rw [hkv]
  | cons p rest ih =>
    intro kv hkv
    by_cases hk : p.1 = k
    · simp only [setKV, hk, if_pos] at hkv
      rcases List.mem_cons.mp hkv with rfl | hmem
      · rfl
      · exact h kv (List.mem_cons_of_mem p hmem)
    · simp only [setKV, hk, if_neg, not_false_iff] at hkv
      rcases List.mem_cons.mp hkv with rfl | hmem
      · exact h _ (List.mem_cons_self _ _)
      · exact ih (fun q hq => h q (List.mem_cons_of_mem _ hq)) kv hmem

/-- The initial count map of findCommonColumns: keys are exactly the
column names of the first table, all values are 1, keys are distinct. -/
theorem buildCounts_spec (cols : List ColumnInfo) :
    (∀ c, c ∈ ((cols.foldl (fun acc col => setKV acc col.name 1) []).map Prod.fst) ↔
        c ∈ cols.map (fun col => col.name)) ∧
    (∀ kv ∈ cols.foldl (fun acc col => setKV acc col.name 1) [],
        (kv : Str × Nat).2 = 1) ∧
    ((cols.foldl (fun acc col => setKV acc col.name 1) []).map Prod.fst).Nodup := by
  have key : ∀ (cs : List ColumnInfo) (acc : List (Str × Nat)),
      (∀ kv ∈ acc, (kv : Str × Nat).2 = 1) → ((acc.map Prod.fst).Nodup) →
      (∀ c, c ∈ ((cs.foldl (fun acc col => setKV acc col.name 1) acc).map Prod.fst) ↔
          c ∈ acc.map Prod.fst ∨ c ∈ cs.map (fun col => col.name)) ∧
      (∀ kv ∈ cs.foldl (fun acc col => setKV acc col.name 1) acc,
          (kv : Str × Nat).2 = 1) ∧
      ((cs.foldl (fun acc col => setKV acc col.name 1) acc).map Prod.fst).Nodup := by
    intro cs
    induction cs with
    | nil =>
      intro acc h1 h2
      refine ⟨fun c => ?_, h1, h2⟩
      simp
    | cons col cs ih =>
      intro acc h1 h2
      have hrec := ih (setKV acc col.name 1) (setKV_values_one acc col.name h1)
        (setKV_fst_nodup acc col.name 1 h2)
      refine ⟨fun c => ?_, hrec.2.1, hrec.2.2⟩
      rw [List.foldl_cons]
      rw [(hrec.1 c)]
      rw [setKV_fst_mem]
      simp only [List.map_cons, List.mem_cons]
      tauto
  have h := key cols [] (by simp) (by simp)
  refine ⟨fun c => ?_, h.2.1, h.2.2⟩
  rw [h.1 c]
  simp

/-- A fold of entrywise maps is an entrywise map of folds. -/
theorem foldl_map_comm (names : SemanticMatch → List Str) (rest : List SemanticMatch)
    (acc : List (Str × Nat)) :
    rest.foldl (fun acc m =>
      acc.map (fun kv => if kv.1 ∈ names m then (kv.1, kv.2 + 1) else kv)) acc =
    acc.map (fun kv => rest.foldl (fun kv m =>
      if (kv : Str × Nat).1 ∈ names m then (kv.1, kv.2 + 1) else kv) kv) := by
  induction rest generalizing acc with
  | nil => simp
  | cons r rs ih =>
    rw [List.foldl_cons, ih, List.map_map]
    rfl

/-- Per-entry effect of the counting fold: the key is kept and the count
grows by the number of remaining tables containing the key. -/
theorem entryFold_spec (names : SemanticMatch → List Str) (rest : List SemanticMatch)
    (c : Str) (n : Nat) :
    rest.foldl (fun kv m =>
      if (kv : Str × Nat).1 ∈ names m then (kv.1, kv.2 + 1) else kv) (c, n) =
    (c, n + rest.countP (fun m => decide (c ∈ names m))) := by
  induction rest generalizing n with
  | nil => simp
  | cons r rs ih =>
    rw [List.foldl_cons]
    by_cases hc : c ∈ names r
    · simp only [hc, if_pos, ih, List.countP_cons]
      simp [hc]
      omega
    · simp only [hc, if_neg, not_false_iff, ih, List.countP_cons]
      simp [hc]

theorem findCommonColumns_spec (matchList : List SemanticMatch) (hne : matchList ≠ []) :
    (findCommonColumns matchList).Nodup ∧
    (∀ c, c ∈ findCommonColumns matchList ↔ ∀ m ∈ matchList, c ∈ colNames m) ∧
    List.Sorted (fun a b => strLt b a = false) (findCommonColumns matchList) := by
  match matchList, hne with
  | m0 :: rest, _ =>
  have hbuild := buildCounts_spec m0.table.columns
  set counts0 := m0.table.columns.foldl (fun acc col => setKV acc col.name 1) [] with hc0
  have hunfold : findCommonColumns (m0 :: rest) =
      exchSort strLt (((counts0.map (fun kv => rest.foldl (fun kv m =>
        if (kv : Str × Nat).1 ∈ colNames m then (kv.1, kv.2 + 1) else kv) kv)).filter
        (fun kv => kv.2 = (m0 :: rest).length)).map (fun kv => kv.1)) := by
    show exchSort strLt _ = _
    rw [← foldl_map_comm (fun m => colNames m) rest counts0]
    rfl
  set result := ((counts0.map (fun kv => rest.foldl (fun kv m =>
    if (kv : Str × Nat).1 ∈ colNames m then (kv.1, kv.2 + 1) else kv) kv)).filter
    (fun kv => kv.2 = (m0 :: rest).length)).map (fun kv => kv.1) with hres
  have hmem : ∀ c, c ∈ result ↔ ∀ m ∈ m0 :: rest, c ∈ colNames m := by
    intro c
    rw [hres]
    simp only [List.mem_map, List.mem_filter, List.length_cons, decide_eq_true_eq]
    constructor
    · rintro ⟨kv, ⟨⟨⟨k0, n0⟩, hkv0mem, hkv0eq⟩, hcount⟩, hfst⟩
      rw [entryFold_spec (fun m => colNames m) rest k0 n0] at hkv0eq
      have hval : n0 = 1 := hbuild.2.1 (k0, n0) hkv0mem
      subst hkv0eq
      simp only at hfst hcount
      subst hfst
      intro m hm
      rcases List.mem_cons.mp hm with rfl | hmrest
      · have hk : k0 ∈ counts0.map Prod.fst :=
          List.mem_map_of_mem Prod.fst hkv0mem
        have h2 := (hbuild.1 k0).mp hk
        simpa [colNames] using h2
      · have hcnt : rest.countP (fun m => decide (k0 ∈ colNames m)) = rest.length := by
          omega
        have hmm := List.countP_eq_length.mp hcnt m hmrest
        simpa using hmm
    · intro hall
      have hm0 : c ∈ colNames m0 := hall m0 (List.mem_cons_self _ _)
      have hc0mem : c ∈ counts0.map Prod.fst := by
        apply (hbuild.1 c).mpr
        simpa [colNames] using hm0
      rcases List.mem_map.mp hc0mem with ⟨⟨k0, n0⟩, hkv0mem, hfst⟩
      simp only at hfst
      subst hfst
      have hval : n0 = 1 := hbuild.2.1 (k0, n0) hkv0mem
      have hcnt : rest.countP (fun m => decide (k0 ∈ colNames m)) = rest.length := by
        apply List.countP_eq_length.mpr
        intro m hm
        simpa using hall m (List.mem_cons_of_mem _ hm)
      refine ⟨(k0, n0 + rest.countP (fun m => decide (k0 ∈ colNames m))),
        ⟨⟨(k0, n0), hkv0mem, ?_⟩, ?_⟩, rfl⟩
      · rw [entryFold_spec (fun m => colNames m) rest k0 n0]
      · simp only
        omega
  have hfst_pres : (counts0.map (fun kv => rest.foldl (fun kv m =>
      if (kv : Str × Nat).1 ∈ colNames m then (kv.1, kv.2 + 1) else kv) kv)).map Prod.fst =
      counts0.map Prod.fst := by
    rw [List.map_map]
    apply List.map_congr_left
    rintro ⟨k0, n0⟩ _
    show Prod.fst (rest.foldl _ (k0, n0)) = k0
    rw [entryFold_spec (fun m => colNames m) rest k0 n0]
  have hnodup : result.Nodup := by
    rw [hres]
    have hsub : List.Sublist (((counts0.map (fun kv => rest.foldl (fun kv m =>
        if (kv : Str × Nat).1 ∈ colNames m then (kv.1, kv.2 + 1) else kv) kv)).filter
        (fun kv => kv.2 = (m0 :: rest).length)).map (fun kv => (kv : Str × Nat).1))
        ((counts0.map (fun kv => rest.foldl (fun kv m =>
        if (kv : Str × Nat).1 ∈ colNames m then (kv.1, kv.2 + 1) else kv) kv)).map Prod.fst) :=
      List.Sublist.map _ (List.filter_sublist _)
    have hnd : ((counts0.map (fun kv => rest.foldl (fun kv m =>
        if (kv : Str × Nat).1 ∈ colNames m then (kv.1, kv.2 + 1) else kv) kv)).map
        Prod.fst).Nodup := by
      rw [hfst_pres]
      exact hbuild.2.2
    exact hnd.sublist hsub
  have hperm := exchSort_perm strLt result
  refine ⟨?_, ?_, ?_⟩
  · rw [hunfold]
    exact (hperm.nodup_iff).mpr hnodup
  · intro c
    rw [hunfold, hperm.mem_iff]
    exact hmem c
  · rw [hunfold]
    exact exchSort_sorted strLt strLt_asymm strLt_negtrans result

/- Concrete fixtures used by the claim witnesses and counterexamples. -/

/-- Fixture: the users table of the specification example. -/
def tUsersFix : TableInfo := { schema := str "public", name := str "users" }

/-- Fixture: the orders table of the specification example. -/
def tOrdersFix : TableInfo := { schema := str "public", name := str "orders" }

/-- Fixture: the schema with exactly public.users and public.orders. -/
def schemaUsersOrders : SchemaCache := { tables := [tUsersFix, tOrdersFix] }

/-- Fixture: an engine over schemaUsersOrders with no learned predictor. -/
def engineUO : QueryEngine :=
  { schema := some schemaUsersOrders, nnTrainer := none, useNN := true }

/-- Fixture: three tables whose names tie under the keyword ab. -/
def tAbcdFix : TableInfo := { schema := str "public", name := str "abcd" }

/-- Fixture: second tied table. -/
def tAbceFix : TableInfo := { schema := str "public", name := str "abce" }

/-- Fixture: exactly matching table. -/
def tAbFix : TableInfo := { schema := str "public", name := str "ab" }

/-- Fixture: schema ordering the tied tables before the exact one. -/
def schemaTies : SchemaCache := { tables := [tAbcdFix, tAbceFix, tAbFix] }

/-- Fixture: a table whose comment word scores just above the threshold. -/
def tCommentFix : TableInfo :=
  { schema := str "public", name := str "t", comment := str "xyzabcdef" }

/-- Fixture: schema containing only the commented table. -/
def schemaComment : SchemaCache := { tables := [tCommentFix] }

/-- Claim C9 (confirmed): GenerateSQL never reads the conversation-context
argument, so any two context strings yield identical results. -/
theorem c9_context_independent (e : QueryEngine) (query c1 c2 : Str) :
    GenerateSQL e query c1 = GenerateSQL e query c2 := rfl

/-- Claim C4 (confirmed): the semantic scorer is a pure function whose
score always lies in the unit interval, and scoring any non-empty string
against itself yields exactly 1. -/
theorem c4_score_unit_interval_and_reflexive :
    (∀ keyword entityName : Str, 0 ≤ (calculateMatchScore keyword entityName).score ∧
      (calculateMatchScore keyword entityName).score ≤ 1) ∧
    (∀ x : Str, x ≠ [] → (calculateMatchScore x x).score = 1) := by
  constructor
  · intro keyword entityName
    exact calculateMatchScore_score_bounds keyword entityName
  · intro x _
    unfold calculateMatchScore
    dsimp only
    rw [if_pos rfl]

/-- Witness for C4 at concrete inputs. -/
theorem c4_score_unit_interval_and_reflexive_witness :
    (0 ≤ (calculateMatchScore (str "user") (str "users")).score ∧
      (calculateMatchScore (str "user") (str "users")).score ≤ 1) ∧
    (calculateMatchScore (str "users") (str "users")).score = 1 :=
  ⟨c4_score_unit_interval_and_reflexive.1 (str "user") (str "users"),
   c4_score_unit_interval_and_reflexive.2 (str "users") (by decide)⟩

/-- Claim C5 counterexample: with keyword ab over tables (abcd, abce, ab),
the two tables tied at score 21/40 come back as (abce, abcd), the reverse
of their schema order (abcd, abce), so the exchange sort is not stable. -/
theorem c5_stability_counterexample :
    (findSemanticMatches schemaTies [str "ab"]).map (fun m => m.table.name) =
      [str "ab", str "abce", str "abcd"] ∧
    (findSemanticMatches schemaTies [str "ab"]).map (fun m => m.score) =
      [1, mkRat 21 40, mkRat 21 40] ∧
    schemaTies.tables.map (fun t => t.name) = [str "abcd", str "abce", str "ab"] := by
  refine ⟨by decide, by decide, by decide⟩

/-- Claim C5 (corrected): the resolver output is sorted by score
descending, but the double-loop exchange sort is not stable, so tables
with equal scores need not keep their schema order. -/
theorem c5_sorted_descending (schema : SchemaCache) (keywords : List Str) :
    List.Sorted (fun a b => b.score ≤ a.score) (findSemanticMatches schema keywords) := by
  unfold findSemanticMatches
  apply List.Pairwise.imp ?_
    (exchSort_sorted matchSwap matchSwap_asymm matchSwap_negtrans _)
  intro a b h
  simp only [matchSwap, decide_eq_false_iff_not, not_lt] at h
  exact h

/-- Claim C1 counterexample: the schema whose table comment contains
xyzabcdef yields, for keyword abc, a single result candidate whose score
69/200 = 0.345 lies strictly below the 0.35 threshold (the raw score
23/60 passes the threshold test, and the 0.9 comment weight is applied
after it). -/
theorem c1_threshold_counterexample :
    (findSemanticMatches schemaComment [str "abc"]).map (fun m => m.score) = [mkRat 69 200] ∧
    mkRat 69 200 < minScore := by
  refine ⟨by decide, by decide⟩

/-- Claim C1 (corrected): every candidate score is at least 0.9 x 0.35 =
63/200 = 0.315; candidates whose best match came from the table name or a
column keep the full 0.35 bound, but a table-comment match is recorded
with the 0.9 weight applied after thresholding and can reach 0.315. -/
theorem c1_score_lower_bound (schema : SchemaCache) (keywords : List Str)
    (m : SemanticMatch) (hm : m ∈ findSemanticMatches schema keywords) :
    mkRat 63 200 ≤ m.score := by
  unfold findSemanticMatches at hm
  have hm2 := (exchSort_perm matchSwap _).mem_iff.mp hm
  rcases buildMatches_mem keywords schema.tables [] m hm2 with habs | ⟨table, hth, hsc⟩
  · cases habs
  · rw [hsc]
    exact bestInv_lower_bound _ (scanTable_inv keywords table) hth

/-- Witness for C1 at the comment-weighted fixture. -/
theorem c1_score_lower_bound_witness :
    mkRat 63 200 ≤ (SemanticMatch.mk tCommentFix (mkRat 69 200) "contains_comment"
      (str "xyzabcdef") (str "abc")).score :=
  c1_score_lower_bound schemaComment [str "abc"] _ (by decide)

/-- Claim C2 counterexample: for the users/orders schema the engine
produces the count SQL with a lowercase keyword as, not the uppercase AS
the specification prints; the two strings differ. -/
theorem c2_count_sql_counterexample :
    GenerateSQL engineUO (str "how many users") (str "") =
      .ok (str "SELECT COUNT(*) as count FROM \"public\".\"users\"") ∧
    str "SELECT COUNT(*) as count FROM \"public\".\"users\"" ≠
      str "SELECT COUNT(*) AS count FROM \"public\".\"users\"" := by
  refine ⟨by decide, by decide⟩

/-- Claim C2 (corrected): for any engine holding exactly the tables
public.users and public.orders whose learned-predictor gate declines, the
query how many users produces exactly the string SELECT COUNT(*) as count
FROM "public"."users" (with a lowercase as, unlike the claim), and no
error. -/
theorem c2_count_sql (e : QueryEngine) (ctx : Str)
    (hschema : e.schema = some schemaUsersOrders)
    (hnn : nnGate e (str "how many users") = none) :
    GenerateSQL e (str "how many users") ctx =
      .ok (str "SELECT COUNT(*) as count FROM \"public\".\"users\"") := by
  unfold GenerateSQL
  rw [hschema, hnn]
  decide

/-- Witness for C2 at the fixture engine. -/
theorem c2_count_sql_witness :
    GenerateSQL engineUO (str "how many users") (str "") =
      .ok (str "SELECT COUNT(*) as count FROM \"public\".\"users\"") :=
  c2_count_sql engineUO (str "") rfl rfl

/-- Fixture: the user_roles table. -/
def tUserRolesFix : TableInfo := { schema := str "public", name := str "user_roles" }

/-- Fixture: schema with users and user_roles. -/
def schemaUsersRoles : SchemaCache := { tables := [tUsersFix, tUserRolesFix] }

/-- Fixture: the customer table. -/
def tCustomerFix : TableInfo := { schema := str "public", name := str "customer" }

/-- Fixture: schema with only customer. -/
def schemaCustomer : SchemaCache := { tables := [tCustomerFix] }

/-- Claim C3 (confirmed): findTable tries case-insensitive exact match,
then substring containment (table name contains the supplied name), then
singular/plural normalization by a stripped trailing s, returning the
first hit of the first stage that succeeds, and nothing when all three
fail; on tables (users, user_roles) the name users resolves exactly, on
(customer) the name customers resolves via the plural rule, and
nonexistent resolves to nothing. -/
theorem c3_findTable_order :
    (∀ (s : SchemaCache) (n : Str) (t : TableInfo),
      s.tables.find? (fun t => toLowerS t.name == toLowerS n) = some t →
      findTable s n = some t) ∧
    (∀ (s : SchemaCache) (n : Str) (t : TableInfo),
      s.tables.find? (fun t => toLowerS t.name == toLowerS n) = none →
      s.tables.find? (fun t => containsS (toLowerS t.name) (toLowerS n)) = some t →
      findTable s n = some t) ∧
    (∀ (s : SchemaCache) (n : Str) (t : TableInfo),
      s.tables.find? (fun t => toLowerS t.name == toLowerS n) = none →
      s.tables.find? (fun t => containsS (toLowerS t.name) (toLowerS n)) = none →
      s.tables.find? (fun t =>
        toLowerS t.name == trimSuffixS (toLowerS n) (str "s") ||
        trimSuffixS (toLowerS t.name) (str "s") == trimSuffixS (toLowerS n) (str "s")) = some t →
      findTable s n = some t) ∧
    (∀ (s : SchemaCache) (n : Str),
      s.tables.find? (fun t => toLowerS t.name == toLowerS n) = none →
      s.tables.find? (fun t => containsS (toLowerS t.name) (toLowerS n)) = none →
      s.tables.find? (fun t =>
        toLowerS t.name == trimSuffixS (toLowerS n) (str "s") ||
        trimSuffixS (toLowerS t.name) (str "s") == trimSuffixS (toLowerS n) (str "s")) = none →
      findTable s n = none) ∧
    findTable schemaUsersRoles (str "users") = some tUsersFix ∧
    findTable schemaCustomer (str "customers") = some tCustomerFix ∧
    findTable schemaUsersRoles (str "nonexistent") = none := by
  refine ⟨?_, ?_, ?_, ?_, by decide, by decide, by decide⟩
  · intro s n t h1
    unfold findTable
    dsimp only
    rw [h1]
  · intro s n t h1 h2
    unfold findTable
    dsimp only
    rw [h1, h2]
  · intro s n t h1 h2 h3
    unfold findTable
    dsimp only
    rw [h1, h2]
    exact h3
  · intro s n h1 h2 h3
    unfold findTable
    dsimp only
    rw [h1, h2]
    exact h3

/-- Witness for C3: the exact-match stage applied to the users fixture. -/
theorem c3_findTable_order_witness :
    findTable schemaUsersRoles (str "users") = some tUsersFix :=
  c3_findTable_order.1 schemaUsersRoles (str "users") tUsersFix (by decide)

/-- Fixture columns for the common-column witness. -/
def colAFix : ColumnInfo := { name := str "a" }

/-- Fixture column b. -/
def colBFix : ColumnInfo := { name := str "b" }

/-- Fixture column c. -/
def colCFix : ColumnInfo := { name := str "c" }

/-- Fixture column d. -/
def colDFix : ColumnInfo := { name := str "d" }

/-- Fixture table with columns (b, a, c). -/
def taFix : TableInfo :=
  { schema := str "public", name := str "ta", columns := [colBFix, colAFix, colCFix] }

/-- Fixture table with columns (c, b, d). -/
def tbFix : TableInfo :=
  { schema := str "public", name := str "tb", columns := [colCFix, colBFix, colDFix] }

/-- Fixture match over columns (b, a, c). -/
def mLeftFix : SemanticMatch := SemanticMatch.mk taFix 1 "" [] []

/-- Fixture match over columns (c, b, d). -/
def mRightFix : SemanticMatch := SemanticMatch.mk tbFix 1 "" [] []

/-- Claim C10 (confirmed): for a non-empty match list, findCommonColumns
returns exactly the names present in every listed table, without
duplicates, sorted in ascending lexicographic order, which makes the order
of the emitted UNION ALL column list deterministic even though the Go map
it is collected from iterates in unspecified order. -/
theorem c10_common_columns (matchList : List SemanticMatch) (hne : matchList ≠ []) :
    (findCommonColumns matchList).Nodup ∧
    (∀ c, c ∈ findCommonColumns matchList ↔
      ∀ m ∈ matchList, c ∈ m.table.columns.map (fun col => col.name)) ∧
    List.Sorted (fun a b : Str => a ≤ b) (findCommonColumns matchList) := by
  have h := findCommonColumns_spec matchList hne
  refine ⟨h.1, fun c => ?_, ?_⟩
  · rw [h.2.1 c]
    unfold colNames
    rfl
  · apply List.Pairwise.imp ?_ h.2.2
    intro a b hab
    refine le_of_not_lt fun hba => ?_
    rw [← strLt_iff_lt b a, hab] at hba
    cases hba

/-- Witness for C10 at two fixture tables sharing columns b and c. -/
theorem c10_common_columns_witness :
    (findCommonColumns [mLeftFix, mRightFix]).Nodup ∧
    (∀ c, c ∈ findCommonColumns [mLeftFix, mRightFix] ↔
      ∀ m ∈ [mLeftFix, mRightFix], c ∈ m.table.columns.map (fun col => col.name)) ∧
    List.Sorted (fun a b : Str => a ≤ b) (findCommonColumns [mLeftFix, mRightFix]) :=
  c10_common_columns [mLeftFix, mRightFix] (by decide)

/-- Fixture: an engine over an empty schema with no learned predictor. -/
def engineEmptyFix : QueryEngine :=
  { schema := some { tables := [] }, nnTrainer := none, useNN := true }

/-- Claim C6 counterexample: for the query ZZQ (with a trailing space) the
no-match error text carries the lowercased, trimmed query zzq; the
original query text as supplied by the caller does not occur in it. -/
theorem c6_error_counterexample :
    GenerateSQL engineEmptyFix (str "ZZQ ") (str "") =
      .error (str "could not understand query: zzq") ∧
    containsS (str "could not understand query: zzq") (str "ZZQ ") = false ∧
    containsS (str "could not understand query: zzq") (str "ZZQ") = false := by
  refine ⟨by decide, by decide, by decide⟩

/-- Claim C6 (corrected): whenever no dispatcher stage produces SQL, the
call fails with an error carrying the trimmed, lowercased query text (not
the original text as supplied by the caller, which the claim states). -/
theorem c6_no_match_error (e : QueryEngine) (schema : SchemaCache) (q ctx : Str)
    (hschema : e.schema = some schema)
    (hnn : nnGate e q = none)
    (h1 : matchCountQuery schema (trimSpaceS (toLowerS q)) = [])
    (h2 : matchShowQuery schema (trimSpaceS (toLowerS q)) = [])
    (h3 : matchTableQuery schema (trimSpaceS (toLowerS q)) = [])
    (h4 : matchSpatialQuery schema (trimSpaceS (toLowerS q)) = [])
    (h5 : matchSelectQuery schema (trimSpaceS (toLowerS q)) = [])
    (h6 : matchSearchQuery schema (trimSpaceS (toLowerS q)) = [])
    (h7 : schema.tables.find? (fun t =>
      containsS (trimSpaceS (toLowerS q)) (toLowerS t.name)) = none) :
    GenerateSQL e q ctx =
      .error (str "could not understand query: " ++ trimSpaceS (toLowerS q)) := by
  unfold GenerateSQL
  rw [hschema, hnn]
  unfold ruleBasedSQL
  dsimp only
  rw [h1, h2, h3, h4, h5, h6, h7]
  simp

/-- Witness for C6 at the empty-schema fixture. -/
theorem c6_no_match_error_witness :
    GenerateSQL engineEmptyFix (str "ZZQ ") (str "") =
      .error (str "could not understand query: " ++ trimSpaceS (toLowerS (str "ZZQ "))) :=
  c6_no_match_error engineEmptyFix { tables := [] } (str "ZZQ ") (str "") rfl rfl
    (by decide) (by decide) (by decide) (by decide) (by decide) (by decide) (by decide)

/-- Fixture: a trainer whose prediction is structurally invalid. -/
def badTrainerFix : NNTrainer :=
  { trained := true, predict := fun _ => some (str "bob", mkRat 9 10) }

/-- Fixture: an engine holding the bad trainer. -/
def engineBadNNFix : QueryEngine :=
  { schema := some schemaUsersOrders, nnTrainer := some badTrainerFix, useNN := true }

/-- Claim C7 (confirmed): the learned-prediction sanity check accepts a
string only if, after trimming and lowercasing, it starts with one of the
eight SQL keywords, a select contains from, and parentheses balance; and a
prediction failing the check falls through to the rule-based dispatcher. -/
theorem c7_valid_sql_structure :
    (∀ sql : Str, isValidSQLStructure sql = true →
      validStarts.any (fun start => start.isPrefixOf (trimSpaceS (toLowerS sql))) = true ∧
      ((str "select").isPrefixOf (trimSpaceS (toLowerS sql)) = true →
        containsS (trimSpaceS (toLowerS sql)) (str "from") = true) ∧
      (trimSpaceS (toLowerS sql)).count '(' = (trimSpaceS (toLowerS sql)).count ')') ∧
    (∀ (e : QueryEngine) (schema : SchemaCache) (t : NNTrainer) (q ctx : Str)
      (p : Str × ℚ), e.schema = some schema → e.nnTrainer = some t →
      t.predict q = some p → isValidSQLStructure p.1 = false →
      GenerateSQL e q ctx = ruleBasedSQL schema q) := by
  constructor
  · intro sql h
    unfold isValidSQLStructure at h
    dsimp only at h
    split_ifs at h with g1 g2 g3 g4
    refine ⟨by simpa using g2, fun hsel => ?_, by simpa using g4⟩
    by_contra hfrom
    exact g3 ⟨hsel, by simpa using hfrom⟩
  · intro e schema t q ctx p hschema htrainer hpredict hvalid
    unfold GenerateSQL
    rw [hschema]
    have hgate : nnGate e q = none := by
      unfold nnGate
      rw [htrainer]
      dsimp only
      rw [hpredict]
      simp [hvalid]
    rw [hgate]

/-- Witness for C7: a well-formed select passes and implies the three
conditions; the invalid prediction bob falls through to the dispatcher. -/
theorem c7_valid_sql_structure_witness :
    (validStarts.any (fun start =>
        start.isPrefixOf (trimSpaceS (toLowerS (str "select * from t")))) = true ∧
      ((str "select").isPrefixOf (trimSpaceS (toLowerS (str "select * from t"))) = true →
        containsS (trimSpaceS (toLowerS (str "select * from t"))) (str "from") = true) ∧
      (trimSpaceS (toLowerS (str "select * from t"))).count '(' =
        (trimSpaceS (toLowerS (str "select * from t"))).count ')') ∧
    GenerateSQL engineBadNNFix (str "how many users") (str "") =
      ruleBasedSQL schemaUsersOrders (str "how many users") :=
  ⟨c7_valid_sql_structure.1 (str "select * from t") (by decide),
   c7_valid_sql_structure.2 engineBadNNFix schemaUsersOrders badTrainerFix
     (str "how many users") (str "") (str "bob", mkRat 9 10) rfl rfl rfl (by decide)⟩

/-- Fixture: the geometry column of the roads table. -/
def roadsColFix : ColumnInfo :=
  { name := str "geom", isGeometry := true, geomType := str "LINESTRING" }

/-- Fixture: the roads table. -/
def tRoadsFix : TableInfo :=
  { schema := str "public", name := str "roads", columns := [roadsColFix] }

/-- Fixture: a spatial-enabled schema containing roads. -/
def schemaRoadsFix : SchemaCache := { tables := [tRoadsFix], hasPostGIS := true }

/-- Formalization of the claim phrase: the query contains a number
followed (after optional whitespace) by a distance-unit token. -/
def numberUnitRE : RE := reCat [dPlus, reOpt (reCat [RE.lit '.', dPlus]), sStar, unitRE]

/-- Claim C8 counterexample: roads 5 km contains a number followed by a
unit token, the schema is spatial-enabled with a geometry column, yet the
spatial matcher declines (its patterns require within before the number or
from/of/away after the unit), so no ST_DWithin SQL is produced. -/
theorem c8_trigger_counterexample :
    (reFind numberUnitRE (str "roads 5 km")).isSome = true ∧
    schemaRoadsFix.hasPostGIS = true ∧
    schemaRoadsFix.tables.filter (fun t => t.columns.any (fun c => c.isGeometry)) ≠ [] ∧
    matchSpatialQuery schemaRoadsFix (str "roads 5 km") = [] := by
  refine ⟨by decide, by decide, by decide, by decide⟩

/-- Push a first-found capture list through the per-pattern continuation
of the spatial matcher. -/
theorem findSome?_capture_map {β : Type} (f : RE → Option (List (Nat × Str)))
    (g : List (Nat × Str) → β) (ps : List RE) (caps : List (Nat × Str))
    (h : ps.findSome? f = some caps) :
    ps.findSome? (fun p => match f p with | some c => some (g c) | none => none) =
      some (g caps) := by
  induction ps with
  | nil => cases h
  | cons p ps ih =>
    cases hf : f p with
    | some c =>
      rw [List.findSome?_cons, hf] at h
      rw [List.findSome?_cons, hf]
      cases h
      rfl
    | none =>
      rw [List.findSome?_cons, hf] at h
      rw [List.findSome?_cons, hf]
      exact ih h

/-- Claim C8 (corrected): when a distance pattern of the spatial matcher
fires (within N unit, or N unit from/of/away; not every number followed by
a unit token), the emitted SQL is the ST_DWithin template over the first
geometry column of the first geometry table, with the captured distance
converted by re-scanning the query text: times 1000 for km, times 1609.34
for mi, unchanged otherwise; in particular find roads within 1km yields
SQL containing ST_DWithin and the meters expression 1 * 1000. -/
theorem c8_distance_conversion :
    (∀ (schema : SchemaCache) (query : Str) (t : TableInfo) (rest : List TableInfo)
      (col : ColumnInfo) (caps : List (Nat × Str)),
      schema.tables.filter (fun t => t.columns.any (fun c => c.isGeometry)) = t :: rest →
      t.columns.find? (fun c => c.isGeometry) = some col →
      col.name ≠ [] →
      distancePatterns.findSome? (fun p => reFind p query) = some caps →
      matchSpatialQuery schema query =
        str "SELECT * FROM \"" ++ t.schema ++ str "\".\"" ++ t.name ++
        str "\"\n\t\t\t\t\tWHERE ST_DWithin(\"" ++ col.name ++
        str "\"::geography, ST_MakePoint(0, 0)::geography, " ++
        (if containsS query (str "km") || containsS query (str "kilometer") then
          getCap caps 1 ++ str " * 1000"
        else if containsS query (str "mi") || containsS query (str "mile") then
          getCap caps 1 ++ str " * 1609.34"
        else getCap caps 1) ++ str ")\n\t\t\t\t\tLIMIT 50") ∧
    containsS (matchSpatialQuery schemaRoadsFix (str "find roads within 1km"))
      (str "ST_DWithin") = true ∧
    containsS (matchSpatialQuery schemaRoadsFix (str "find roads within 1km"))
      (str ", 1 * 1000)") = true := by
  refine ⟨?_, by decide, by decide⟩
  intro schema query t rest col caps hfilter hcol hname hfind
  unfold matchSpatialQuery
  rw [hfilter]
  dsimp only
  rw [hcol]
  simp only [ne_eq, hname, not_false_iff, if_true]
  rw [findSome?_capture_map (fun p => reFind p query) _ distancePatterns caps hfind]

/-- Witness for C8 at the roads fixture and the query find roads within
1km, whose first distance pattern captures 1. -/
theorem c8_distance_conversion_witness :
    matchSpatialQuery schemaRoadsFix (str "find roads within 1km") =
      str "SELECT * FROM \"" ++ tRoadsFix.schema ++ str "\".\"" ++ tRoadsFix.name ++
      str "\"\n\t\t\t\t\tWHERE ST_DWithin(\"" ++ roadsColFix.name ++
      str "\"::geography, ST_MakePoint(0, 0)::geography, " ++
      (if containsS (str "find roads within 1km") (str "km") ||
          containsS (str "find roads within 1km") (str "kilometer") then
        getCap [(1, str "1")] 1 ++ str " * 1000"
      else if containsS (str "find roads within 1km") (str "mi") ||
          containsS (str "find roads within 1km") (str "mile") then
        getCap [(1, str "1")] 1 ++ str " * 1609.34"
      else getCap [(1, str "1")] 1) ++ str ")\n\t\t\t\t\tLIMIT 50" :=
  c8_distance_conversion.1 schemaRoadsFix (str "find roads within 1km") tRoadsFix []
    roadsColFix [(1, str "1")] (by decide) (by decide) (by decide) (by decide)
